import Mathlib

/-!
Verification of the retro-data-structures asset manager and codec layer.

The Python source is shallowly embedded:

* Python `dict`s become association lists (`dlookup` / `dinsert`) preserving
  insertion order and the replace-in-place update of `d[k] = v`.
* Python `set`s used by the manager become duplicate-free lists (`sadd`,
  membership and removal by filtering); only membership is observed by the
  properties below.
* byte strings become `List Nat` with each entry a byte value;
  big-endian integer fields are read and written with `readBE`/`writeBE`.
* Generators are embedded as functions returning the full list of yielded
  values; raised exceptions become `Except` errors.
* External collaborators absent from the core (typed resource parsers, the
  LZO codec, `nod`) are passed in as explicit function parameters.
-/

namespace RetroData

/-- Python dict lookup `m[k]` returning `none` for a missing key. -/
def dlookup {α β : Type} [BEq α] (m : List (α × β)) (k : α) : Option β :=
  (m.find? (fun p => p.1 == k)).map (fun p => p.2)

/-- Python dict update `m[k] = v`: replaces the value in place when the key
exists, otherwise appends the new binding. -/
def dinsert {α β : Type} [BEq α] (m : List (α × β)) (k : α) (v : β) : List (α × β) :=
  if (m.find? (fun p => p.1 == k)).isSome then
    m.map (fun p => if p.1 == k then (k, v) else p)
  else
    m ++ [(k, v)]

/-- Python set insertion `s.add(x)` on a list-as-set. -/
def sadd {α : Type} [BEq α] (s : List α) (x : α) : List α :=
  if s.contains x then s else s ++ [x]

/-- Read `k` big-endian bytes as a natural number, returning the remaining
stream. -/
def readBE : Nat → List Nat → Option (Nat × List Nat)
  | 0, rest => some (0, rest)
  | _ + 1, [] => none
  | k + 1, b :: rest =>
    match readBE k rest with
    | none => none
    | some (v, r) => some (b * 256 ^ k + v, r)

/-- Write a natural number as `k` big-endian bytes. -/
def writeBE : Nat → Nat → List Nat
  | 0, _ => []
  | k + 1, n => (n / 256 ^ k) % 256 :: writeBE k n

theorem readBE_writeBE (k : Nat) (n : Nat) (r : List Nat) :
    readBE k (writeBE k n ++ r) = some (n % 256 ^ k, r) := by
  induction k generalizing n with
  | zero => simp [readBE, writeBE, Nat.mod_one]
  | succ k ih =>
    simp only [writeBE, List.cons_append, readBE, List.append_eq, ih]
    rw [pow_succ, Nat.mod_mul]
    have h2 : n / 256 ^ k % 256 * 256 ^ k + n % 256 ^ k
        = n % 256 ^ k + 256 ^ k * (n / 256 ^ k % 256) := by ring
    rw [h2]

theorem readBE_lt (k : Nat) (bs : List Nat) (v : Nat) (r : List Nat)
    (hb : ∀ b ∈ bs, b < 256) (h : readBE k bs = some (v, r)) : v < 256 ^ k := by
  induction k generalizing bs v r with
  | zero =>
    simp only [readBE, Option.some.injEq, Prod.mk.injEq] at h
    simp [← h.1]
  | succ k ih =>
    match bs with
    | [] => simp [readBE] at h
    | b :: rest =>
      simp only [readBE] at h
      match hv : readBE k rest with
      | none => rw [hv] at h; exact absurd h (by simp)
      | some (w, r2) =>
        rw [hv] at h
        simp only [Option.some.injEq, Prod.mk.injEq] at h
        have hb0 : b < 256 := hb b (by simp)
        have hrec : w < 256 ^ k :=
          ih rest w r2 (fun x hx => hb x (by simp [hx])) hv
        have hveq : v = b * 256 ^ k + w := h.1.symm
        rw [hveq, pow_succ]
        calc b * 256 ^ k + w < b * 256 ^ k + 256 ^ k := by omega
          _ = (b + 1) * 256 ^ k := by ring
          _ ≤ 256 * 256 ^ k := Nat.mul_le_mul_right _ hb0
          _ = 256 ^ k * 256 := by ring

theorem writeBE_high (k : Nat) (b : Nat) (v : Nat) :
    writeBE k (b * 256 ^ k + v) = writeBE k v := by
  induction k generalizing b v with
  | zero => simp [writeBE]
  | succ k ih =>
    have h256 : (0:Nat) < 256 ^ k := Nat.pow_pos (by norm_num)
    simp only [writeBE]
    congr 1
    · rw [pow_succ, show b * (256 ^ k * 256) + v = v + b * 256 * 256 ^ k by ring,
        Nat.add_mul_div_right _ _ h256, Nat.add_mul_mod_self_right]
    · rw [pow_succ, show b * (256 ^ k * 256) + v = b * 256 * 256 ^ k + v by ring]
      exact ih (b * 256) v

theorem writeBE_readBE (k : Nat) (bs : List Nat) (v : Nat) (r : List Nat)
    (hb : ∀ b ∈ bs, b < 256) (h : readBE k bs = some (v, r)) :
    writeBE k v ++ r = bs := by
  induction k generalizing bs v r with
  | zero =>
    simp only [readBE, Option.some.injEq, Prod.mk.injEq] at h
    simp [writeBE, h.2]
  | succ k ih =>
    match bs with
    | [] => simp [readBE] at h
    | b :: rest =>
      simp only [readBE] at h
      match hv : readBE k rest with
      | none => rw [hv] at h; exact absurd h (by simp)
      | some (w, r2) =>
        rw [hv] at h
        simp only [Option.some.injEq, Prod.mk.injEq] at h
        have hb0 : b < 256 := hb b (by simp)
        have hbr : ∀ x ∈ rest, x < 256 := fun x hx => hb x (by simp [hx])
        have hrec : w < 256 ^ k := readBE_lt k rest w r2 hbr hv
        have hveq : v = b * 256 ^ k + w := h.1.symm
        have hreq : r = r2 := h.2.symm
        have hdiv : v / 256 ^ k = b := by
          rw [hveq, show b * 256 ^ k + w = w + 256 ^ k * b by ring,
            Nat.add_mul_div_left _ _ (Nat.pow_pos (by norm_num : (0:Nat) < 256)),
            Nat.div_eq_of_lt hrec, Nat.zero_add]
        have hih : writeBE k w ++ r2 = rest := ih rest w r2 hbr hv
        have htail : writeBE k v = writeBE k w := by rw [hveq]; exact writeBE_high k b w
        simp only [writeBE, hdiv, Nat.mod_eq_of_lt hb0, List.cons_append, htail, hreq, hih]

/-! ## Game model (`retro_data_structures/game_check.py`) -/

/-- The `Game` enum from `game_check.py`. -/
inductive Game
  | PRIME
  | ECHOES
  | CORRUPTION
  | PRIME_REMASTER
deriving DecidableEq, Repr

/-- Numeric enum value of each game. -/
def Game.value : Game → Nat
  | .PRIME => 1
  | .ECHOES => 2
  | .CORRUPTION => 3
  | .PRIME_REMASTER => 10

/-- The comparison `self <= other` used in `game_check.py`. -/
def Game.le (a b : Game) : Bool := a.value ≤ b.value

/-- Property `uses_asset_id_32`: true for Prime 1 and Echoes. -/
def Game.uses_asset_id_32 (g : Game) : Bool := g.le .ECHOES

/-- Property `uses_asset_id_64`: true only for Corruption. -/
def Game.uses_asset_id_64 (g : Game) : Bool := g == .CORRUPTION

/-- Property `invalid_asset_id`: the all-ones id for the integer games and the
nil GUID (modelled as its integer value `0`) for the remaster. -/
def Game.invalid_asset_id (g : Game) : Nat :=
  if g.uses_asset_id_32 then 2 ^ 32 - 1
  else if g.uses_asset_id_64 then 2 ^ 64 - 1
  else 0

/-- Method `is_valid_asset_id` from `game_check.py`: zero is invalid for the
32-bit games, and the game's reserved invalid id is always invalid. -/
def Game.is_valid_asset_id (g : Game) (asset_id : Nat) : Bool :=
  if g.le .ECHOES && asset_id == 0 then false
  else asset_id != g.invalid_asset_id

/-- Property `mlvl_dependencies_to_ignore` from `game_check.py`: the single
hard-coded id for Echoes, empty for every other game. -/
def Game.mlvl_dependencies_to_ignore (g : Game) : List Nat :=
  if g = .ECHOES then [0x7b2ea5b1] else []

/-! ## Asset-manager data model (`retro_data_structures/asset_manager.py`)

Asset ids are `Nat`.  A `RawResource` is the `(type, bytes)` pair from
`base_resource.py`; a `Dependency` is the `(type, id, exclude_for_mlvl)`
triple, with `exclude_for_mlvl` defaulting to `False` as in the source's
usage (`Dependency("ANCS", asset_id)`). -/

/-- Resource payload `(type, data)` as stored in the modification map and in
PAK entries. -/
structure RawResource where
  type : String
  data : List Nat
deriving DecidableEq, Repr

/-- Dependency triple yielded by the dependency engine. -/
structure Dependency where
  type : String
  id : Nat
  exclude_for_mlvl : Bool := false
deriving DecidableEq, Repr

/-- A parsed PAK body: the ordered list of `(asset_id, resource)` entries.
Modelled from the spec: `formats/pak.py` is outside the provided core, and
§4.C describes a PAK as an ordered list of resource entries addressable by
asset id. -/
abbrev PakData := List (Nat × RawResource)

/-- Modelled from the spec: `Pak.get_asset` returns the body for an asset id
when the PAK holds it (§4.C, per-entry body reads addressable by asset id). -/
def PakData.get_asset (pak : PakData) (asset_id : Nat) : Option RawResource :=
  dlookup pak asset_id

/-- Modelled from the spec: `Pak.replace_asset` replaces the body of the
entry with the given id, preserving entry order (§4.C). -/
def PakData.replace_asset (pak : PakData) (asset_id : Nat) (raw : RawResource) : PakData :=
  pak.map (fun e => if e.1 == asset_id then (asset_id, raw) else e)

/-- Modelled from the spec: `Pak.remove_asset` elides the entries with the
given id (§4.C). -/
def PakData.remove_asset (pak : PakData) (asset_id : Nat) : PakData :=
  pak.filter (fun e => e.1 != asset_id)

/-- Modelled from the spec: `Pak.add_asset` appends a new entry (§4.C, "new
entries are appended"). -/
def PakData.add_asset (pak : PakData) (asset_id : Nat) (raw : RawResource) : PakData :=
  pak ++ [(asset_id, raw)]

/-- The file provider visible to the manager, reduced to what
`_update_headers`, `get_pak` and `save_modifications` consume: the PAK files
(in `rglob` order) with their parsed contents, and the optional
`custom_names.json` alias table. -/
structure Provider where
  paks : List (String × PakData)
  custom_names : Option (List (String × Nat))
deriving DecidableEq, Repr

/-- Errors raised by the asset manager.  `unknownAssetId` embeds
`UnknownAssetId`, `valueError` embeds `ValueError`, `keyError` embeds a bare
`KeyError`, and `outOfFuel` marks a run of the (unbounded) recursion in
`ensure_present` that did not terminate within the given fuel. -/
inductive AMError
  | unknownAssetId (asset_id : Nat)
  | valueError (msg : String)
  | keyError
  | outOfFuel
deriving DecidableEq, Repr

/-- Mutable state of `AssetManager`.  The `provider` and `target_game` fields
are the constructor arguments; the remaining fields mirror the instance
attributes.  The two-level ANCS cache and the audio-group table are omitted:
no claim below touches them. -/
structure AMState where
  target_game : Game
  provider : Provider
  paks_for_asset_id : List (Nat × List String)
  types_for_asset_id : List (Nat × String)
  ensured_asset_ids : List (String × List Nat)
  modified_resources : List (Nat × Option RawResource)
  in_memory_paks : List (String × PakData)
  custom_asset_ids : List (String × Nat)
  next_generated_id : Nat
  cached_dependencies : List (Nat × List Dependency)
deriving DecidableEq, Repr

/-- The pak-name index built by the `_update_headers` scan loop: for each pak
(in provider order) and each of its entries, `_add_pak_name_for_asset_id`. -/
def scanPaksForAssetId (paks : List (String × PakData)) : List (Nat × List String) :=
  paks.foldl
    (fun acc npak =>
      npak.2.foldl
        (fun acc2 entry =>
          dinsert acc2 entry.1 (sadd ((dlookup acc2 entry.1).getD []) npak.1))
        acc)
    []

/-- The type index built by the `_update_headers` scan loop. -/
def scanTypesForAssetId (paks : List (String × PakData)) : List (Nat × String) :=
  paks.foldl
    (fun acc npak => npak.2.foldl (fun acc2 entry => dinsert acc2 entry.1 entry.2.type) acc)
    []

/-- Method `_update_headers`: reset the ensured sets, both indices and the
alias table, then re-scan every PAK header of the provider. -/
def AMState.update_headers (st : AMState) : AMState :=
  { st with
    ensured_asset_ids := st.provider.paks.map (fun p => (p.1, [])),
    paks_for_asset_id := scanPaksForAssetId st.provider.paks,
    types_for_asset_id := scanTypesForAssetId st.provider.paks,
    custom_asset_ids := (st.provider.custom_names).getD [] }

/-- The `AssetManager` constructor: store provider and game, clear the
modification map, the in-memory PAKs and the dependency caches, seed the
fresh-id counter at `0xFFFF0000`, and scan headers. -/
def AMState.init (provider : Provider) (target_game : Game) : AMState :=
  AMState.update_headers
    { target_game := target_game
      provider := provider
      paks_for_asset_id := []
      types_for_asset_id := []
      ensured_asset_ids := []
      modified_resources := []
      in_memory_paks := []
      custom_asset_ids := []
      next_generated_id := 0xFFFF0000
      cached_dependencies := [] }

/-! ## Asset-manager operations.

String-name resolution (`base_resource.resolve_asset_id`) and the typed
resource parsers live outside the provided core; operations below therefore
take integer asset ids directly, and the dependency-producing externals
(the cheat table and the per-format `dependencies_for`) enter as an explicit
`computeDeps : Nat → List Dependency` parameter treated as a pure function
of the asset id. -/

/-- Method `all_asset_ids`: the keys of the pak index, in insertion order. -/
def AMState.all_asset_ids (st : AMState) : List Nat :=
  st.paks_for_asset_id.map (fun p => p.1)

/-- Method `find_paks`: the pak names holding the id; `UnknownAssetId` when
the id is not in the index. -/
def AMState.find_paks (st : AMState) (asset_id : Nat) : Except AMError (List String) :=
  match dlookup st.paks_for_asset_id asset_id with
  | some names => .ok names
  | none => .error (.unknownAssetId asset_id)

/-- Method `does_asset_exists`: a modification-map entry wins (and a
tombstone means "does not exist"); otherwise membership in the pak index. -/
def AMState.does_asset_exists (st : AMState) (asset_id : Nat) : Bool :=
  match dlookup st.modified_resources asset_id with
  | some r => r.isSome
  | none => (dlookup st.paks_for_asset_id asset_id).isSome

/-- Method `get_asset_type`: the modification map first (`ValueError` on a
tombstone), then the header type index (`UnknownAssetId` when absent). -/
def AMState.get_asset_type (st : AMState) (asset_id : Nat) : Except AMError String :=
  match dlookup st.modified_resources asset_id with
  | some none => .error (.valueError "Deleted asset_id")
  | some (some r) => .ok r.type
  | none =>
    match dlookup st.types_for_asset_id asset_id with
    | some t => .ok t
    | none => .error (.unknownAssetId asset_id)

/-- Method `get_pak`: requires a known pak name, parses it into
`in_memory_paks` on first access. -/
def AMState.get_pak (st : AMState) (pak_name : String) : Except AMError (PakData × AMState) :=
  if (dlookup st.ensured_asset_ids pak_name).isNone then
    .error (.valueError "Unknown pak_name")
  else
    match dlookup st.in_memory_paks pak_name with
    | some pak => .ok (pak, st)
    | none =>
      match dlookup st.provider.paks pak_name with
      | none => .error .keyError
      | some data =>
        .ok (data, { st with in_memory_paks := dinsert st.in_memory_paks pak_name data })

/-- The pak-scanning loop of `get_raw_asset`: try each pak holding the id in
order; the source falls through and implicitly returns `None` when no pak
yields the asset. -/
def findRawInPaks (asset_id : Nat) : AMState → List String → Except AMError (Option RawResource × AMState)
  | st, [] => .ok (none, st)
  | st, pak_name :: rest =>
    match st.get_pak pak_name with
    | .error e => .error e
    | .ok (pak, st2) =>
      match pak.get_asset asset_id with
      | some r => .ok (some r, st2)
      | none => findRawInPaks asset_id st2 rest

/-- Method `get_raw_asset`: modification map first (`ValueError` on a
tombstone), else the first pak that holds the id. -/
def AMState.get_raw_asset (st : AMState) (asset_id : Nat) :
    Except AMError (Option RawResource × AMState) :=
  match dlookup st.modified_resources asset_id with
  | some none => .error (.valueError "Deleted asset_id")
  | some (some r) => .ok (some r, st)
  | none =>
    match dlookup st.paks_for_asset_id asset_id with
    | none => .error (.unknownAssetId asset_id)
    | some pak_names => findRawInPaks asset_id st pak_names

/-- The `while self.does_asset_exists(result): result += 1` loop of
`generate_asset_id`, with explicit fuel.  The source loop is unbounded;
`generate_asset_id` below supplies fuel proven sufficient
(`nextFreeId_not_exists`), so the embedding computes exactly the value the
source loop returns. -/
def nextFreeId (st : AMState) : Nat → Nat → Nat
  | 0, r => r
  | fuel + 1, r => if st.does_asset_exists r then nextFreeId st fuel (r + 1) else r

/-- Method `generate_asset_id`: scan upward from the counter past every id
that currently exists, then advance the counter past the returned id. -/
def AMState.generate_asset_id (st : AMState) : Nat × AMState :=
  let fuel := st.modified_resources.length + st.paks_for_asset_id.length + 1
  let result := nextFreeId st fuel st.next_generated_id
  (result, { st with next_generated_id := result + 1 })

/-- Method `register_custom_asset_name`: reject ids that already exist and
aliases bound to a different id. -/
def AMState.register_custom_asset_name (st : AMState) (name : String) (asset_id : Nat) :
    Except AMError AMState :=
  if st.does_asset_exists asset_id then .error (.valueError "already exists")
  else if ((dlookup st.custom_asset_ids name).isSome
      && (dlookup st.custom_asset_ids name != some asset_id)) then
    .error (.valueError "name already exists")
  else .ok { st with custom_asset_ids := dinsert st.custom_asset_ids name asset_id }

/-- Generator `_get_dependencies_for_asset`: nothing for invalid ids; nothing
(or `UnknownAssetId` under `must_exist`) for unknown ids; otherwise the
cached tuple — computed on a miss by the external parsers/cheats
(`computeDeps`) and written to the cache — followed by the asset itself with
`exclude_for_mlvl=False`. -/
def getDependenciesForAssetInner (computeDeps : Nat → List Dependency) (st : AMState)
    (asset_id : Nat) (must_exist : Bool) : Except AMError (List Dependency × AMState) :=
  if !(st.target_game.is_valid_asset_id asset_id) then .ok ([], st)
  else if !(st.does_asset_exists asset_id) then
    if must_exist then .error (.unknownAssetId asset_id) else .ok ([], st)
  else
    match st.get_asset_type asset_id with
    | .error e => .error e
    | .ok asset_type =>
      match dlookup st.cached_dependencies asset_id with
      | some deps => .ok (deps ++ [⟨asset_type, asset_id, false⟩], st)
      | none =>
        let deps := computeDeps asset_id
        .ok (deps ++ [⟨asset_type, asset_id, false⟩],
          { st with cached_dependencies := dinsert st.cached_dependencies asset_id deps })

/-- Method `get_dependencies_for_asset`: wraps the inner generator, OR-ing
`exclude_for_mlvl` with the override flag — which is computed from the
queried id's membership in the game's ignore set. -/
def AMState.get_dependencies_for_asset (computeDeps : Nat → List Dependency) (st : AMState)
    (asset_id : Nat) (must_exist : Bool) : Except AMError (List Dependency × AMState) :=
  let override := st.target_game.mlvl_dependencies_to_ignore.contains asset_id
  match getDependenciesForAssetInner computeDeps st asset_id must_exist with
  | .error e => .error e
  | .ok (deps, st2) =>
    .ok (deps.map (fun it => ⟨it.type, it.id, it.exclude_for_mlvl || override⟩), st2)

/-- Method `replace_asset` (raw-bytes branch; the `BaseResource` branch
differs only in calling the external `build` first): the id must exist, then
the modification map is updated. -/
def AMState.replace_asset (st : AMState) (asset_id : Nat) (new_data : RawResource) :
    Except AMError AMState :=
  if !(st.does_asset_exists asset_id) then .error (.unknownAssetId asset_id)
  else .ok { st with
    modified_resources := dinsert st.modified_resources asset_id (some new_data) }

/-- Method `delete_asset`: the id must exist; tombstone it and drop it from
every ensured set. -/
def AMState.delete_asset (st : AMState) (asset_id : Nat) : Except AMError AMState :=
  if !(st.does_asset_exists asset_id) then .error (.unknownAssetId asset_id)
  else .ok { st with
    modified_resources := dinsert st.modified_resources asset_id none,
    ensured_asset_ids :=
      st.ensured_asset_ids.map (fun p => (p.1, p.2.filter (fun x => x != asset_id))) }

/-- Method `ensure_present`: known pak, existing asset; record the id in the
pak's ensured set unless the pak already holds it; then recurse into every
dependency other than the asset itself (the `for dep in ...` loop is the
error-propagating fold).  The source recursion carries no visited set;
`fuel` bounds it, `outOfFuel` standing for non-termination. -/
def AMState.ensure_present (computeDeps : Nat → List Dependency) :
    Nat → AMState → String → Nat → Except AMError AMState
  | 0, _, _, _ => .error .outOfFuel
  | fuel + 1, st, pak_name, asset_id =>
    match dlookup st.ensured_asset_ids pak_name with
    | none => .error (.valueError "Unknown pak_name")
    | some ensured =>
      if !(st.does_asset_exists asset_id) then .error (.unknownAssetId asset_id)
      else
        match dlookup st.paks_for_asset_id asset_id with
        | none => .error .keyError
        | some pak_names =>
          let st2 :=
            if pak_names.contains pak_name then st
            else { st with
                    ensured_asset_ids :=
                      dinsert st.ensured_asset_ids pak_name (sadd ensured asset_id) }
          match st2.get_dependencies_for_asset computeDeps asset_id false with
          | .error e => .error e
          | .ok (deps, st3) =>
            deps.foldl
              (fun acc dep =>
                match acc with
                | .error e => .error e
                | .ok stAcc =>
                  if dep.id == asset_id then .ok stAcc
                  else AMState.ensure_present computeDeps fuel stAcc pak_name dep.id)
              (.ok st3)

/-! ## Saving (`AssetManager.save_modifications`).

The output directory is modelled as the value written under `out_root`: the
set of PAK files serialized there plus the `custom_names.json` contents. -/

/-- What `save_modifications(output_path)` writes under `output_path`. -/
structure SaveOutput where
  paks : List (String × PakData)
  custom_names : List (String × Nat)
deriving DecidableEq, Repr

/-- Step 1 of the save algorithm: the paks touched by the modification map
(`modified_paks.update(self._paks_for_asset_id[asset_id])`), in encounter
order andwithout duplicates. -/
def collectModifiedPaks (st : AMState) : Except AMError (List String) :=
  st.modified_resources.foldlM
    (fun acc entry =>
      match dlookup st.paks_for_asset_id entry.1 with
      | none => .error .keyError
      | some names => .ok (names.foldl sadd acc))
    []

/-- Step 2: make sure all touched paks are loaded into memory. -/
def loadPaks : AMState → List String → Except AMError AMState
  | st, [] => .ok st
  | st, pak_name :: rest =>
    match st.get_pak pak_name with
    | .error e => .error e
    | .ok (_, st2) => loadPaks st2 rest

/-- Inner loop of step 3: materialize each listed id once
(`if asset_id not in asset_ids_to_copy`). -/
def collectCopyIds (copy : List (Nat × Option RawResource)) (st : AMState) :
    List Nat → Except AMError (List (Nat × Option RawResource) × AMState)
  | [] => .ok (copy, st)
  | asset_id :: rest =>
    if (dlookup copy asset_id).isSome then collectCopyIds copy st rest
    else
      match st.get_raw_asset asset_id with
      | .error e => .error e
      | .ok (raw, st2) => collectCopyIds (dinsert copy asset_id raw) st2 rest

/-- Outer loop of step 3 over the ensured sets of every pak. -/
def collectCopyEntries (copy : List (Nat × Option RawResource)) (st : AMState) :
    List (String × List Nat) → Except AMError (List (Nat × Option RawResource) × AMState)
  | [] => .ok (copy, st)
  | entry :: rest =>
    match collectCopyIds copy st entry.2 with
    | .error e => .error e
    | .ok (copy2, st2) => collectCopyEntries copy2 st2 rest

/-- Step 3: materialize the bytes of every ensured asset id once, keyed by
id (`asset_ids_to_copy`). -/
def collectAssetsToCopy (st : AMState) :
    Except AMError (List (Nat × Option RawResource) × AMState) :=
  collectCopyEntries [] st st.ensured_asset_ids

/-- The per-pak modification loop of step 4: `replace_asset`/`remove_asset`
for every modification-map entry whose id lives in this pak. -/
def applyModificationsToPak (st : AMState) (pak_name : String) (pak : PakData) :
    Except AMError PakData :=
  st.modified_resources.foldlM
    (fun acc entry =>
      match dlookup st.paks_for_asset_id entry.1 with
      | none => .error .keyError
      | some names =>
        if names.contains pak_name then
          match entry.2 with
          | none => .ok (acc.remove_asset entry.1)
          | some raw => .ok (acc.replace_asset entry.1 raw)
        else .ok acc)
    pak

/-- The ensured-asset loop of step 4: `pak.add_asset(asset_id,
asset_ids_to_copy[asset_id])`.  A missing key is a `KeyError`; a `None`
entry (an asset the scan could not materialize) cannot be serialized and is
reported as an error here. -/
def addEnsuredToPak (copy : List (Nat × Option RawResource)) (ids : List Nat) (pak : PakData) :
    Except AMError PakData :=
  ids.foldlM
    (fun acc asset_id =>
      match dlookup copy asset_id with
      | none => .error .keyError
      | some none => .error (.valueError "cannot serialize None resource")
      | some (some raw) => .ok (acc.add_asset asset_id raw))
    pak

/-- Steps 4-5 for one pak: pop it from memory, apply modifications, append
ensured assets, emit the bytes under `out_root`. -/
def savePak (copy : List (Nat × Option RawResource)) (st : AMState) (out : List (String × PakData))
    (pak_name : String) : Except AMError (AMState × List (String × PakData)) :=
  match dlookup st.in_memory_paks pak_name with
  | none => .error .keyError
  | some pak =>
    let st2 := { st with
      in_memory_paks := st.in_memory_paks.filter (fun p => p.1 != pak_name) }
    match applyModificationsToPak st2 pak_name pak with
    | .error e => .error e
    | .ok pak2 =>
      match dlookup st2.ensured_asset_ids pak_name with
      | none => .error .keyError
      | some ensured =>
        match addEnsuredToPak copy ensured pak2 with
        | .error e => .error e
        | .ok pak3 => .ok (st2, out ++ [(pak_name, pak3)])

/-- The `for pak_name in modified_paks` loop of steps 4-5. -/
def savePaksLoop (copy : List (Nat × Option RawResource)) :
    AMState → List (String × PakData) → List String →
    Except AMError (AMState × List (String × PakData))
  | st, out, [] => .ok (st, out)
  | st, out, pak_name :: rest =>
    match savePak copy st out pak_name with
    | .error e => .error e
    | .ok (st2, out2) => savePaksLoop copy st2 out2 rest

/-- Method `save_modifications`: compute touched paks, load them, materialize
ensured assets, rewrite and emit each touched pak, write
`custom_names.json`, then clear the modification map and call
`_update_headers` — which re-scans `self.provider`, the manager's original
provider. -/
def AMState.save_modifications (st : AMState) : Except AMError (AMState × SaveOutput) :=
  match collectModifiedPaks st with
  | .error e => .error e
  | .ok modified_paks =>
    match loadPaks st modified_paks with
    | .error e => .error e
    | .ok st2 =>
      match collectAssetsToCopy st2 with
      | .error e => .error e
      | .ok (copy, st3) =>
        match savePaksLoop copy st3 [] modified_paks with
        | .error e => .error e
        | .ok (st4, out_paks) =>
          let output := SaveOutput.mk out_paks st4.custom_asset_ids
          let st5 := AMState.update_headers { st4 with modified_resources := [] }
          .ok (st5, output)

/-! ## Helper lemmas for the manager proofs -/

theorem dlookup_mem_keys {α β : Type} [BEq α] [LawfulBEq α] (m : List (α × β)) (k : α) (v : β)
    (h : dlookup m k = some v) : k ∈ m.map Prod.fst := by
  unfold dlookup at h
  match hf : m.find? (fun p => p.1 == k) with
  | none => rw [hf] at h; simp at h
  | some pr =>
    have hp := List.find?_some hf
    have hm : pr ∈ m := List.mem_of_find?_eq_some hf
    have hk : pr.1 = k := by simpa using hp
    exact hk ▸ List.mem_map_of_mem Prod.fst hm

theorem does_asset_exists_mem (st : AMState) (x : Nat)
    (h : st.does_asset_exists x = true) :
    x ∈ st.modified_resources.map Prod.fst ++ st.paks_for_asset_id.map Prod.fst := by
  unfold AMState.does_asset_exists at h
  match hm : dlookup st.modified_resources x with
  | some r =>
    exact List.mem_append_left _ (dlookup_mem_keys _ _ _ hm)
  | none =>
    rw [hm] at h
    match hp : dlookup st.paks_for_asset_id x with
    | none => rw [hp] at h; simp at h
    | some names => exact List.mem_append_right _ (dlookup_mem_keys _ _ _ hp)

theorem nextFreeId_ge (st : AMState) (fuel r : Nat) : r ≤ nextFreeId st fuel r := by
  induction fuel generalizing r with
  | zero => simp [nextFreeId]
  | succ fuel ih =>
    unfold nextFreeId
    by_cases h : st.does_asset_exists r = true
    · simp only [h, if_true]
      exact Nat.le_trans (Nat.le_succ r) (ih (r + 1))
    · simp only [h]
      simp

theorem nextFreeId_not_exists (st : AMState) (fuel r : Nat)
    (h : ∃ i, i < fuel ∧ st.does_asset_exists (r + i) = false) :
    st.does_asset_exists (nextFreeId st fuel r) = false := by
  induction fuel generalizing r with
  | zero => obtain ⟨i, hi, _⟩ := h; omega
  | succ fuel ih =>
    unfold nextFreeId
    by_cases he : st.does_asset_exists r = true
    · simp only [he, if_true]
      apply ih
      obtain ⟨i, hi, hfalse⟩ := h
      match i with
      | 0 => rw [Nat.add_zero] at hfalse; rw [hfalse] at he; exact absurd he (by simp)
      | j + 1 => exact ⟨j, by omega, by rw [show r + 1 + j = r + (j + 1) by omega]; exact hfalse⟩
    · simp only [he, if_false]
      simpa using he

theorem exists_free_in_window (st : AMState) (r : Nat) :
    ∃ i, i < st.modified_resources.length + st.paks_for_asset_id.length + 1
      ∧ st.does_asset_exists (r + i) = false := by
  by_contra hcon
  push_neg at hcon
  set fuel := st.modified_resources.length + st.paks_for_asset_id.length + 1 with hfuel
  have hall : ∀ i < fuel, st.does_asset_exists (r + i) = true := by
    intro i hi
    have := hcon i hi
    revert this
    cases st.does_asset_exists (r + i) <;> simp
  set K : List Nat := st.modified_resources.map Prod.fst ++ st.paks_for_asset_id.map Prod.fst
    with hK
  have hmaps : ∀ a ∈ Finset.range fuel, r + a ∈ K.toFinset := by
    intro a ha
    rw [List.mem_toFinset]
    exact does_asset_exists_mem st (r + a) (hall a (Finset.mem_range.mp ha))
  have hinj : Set.InjOn (fun a => r + a) (Finset.range fuel) := by
    intro a _ b _ hab
    have hab2 : r + a = r + b := hab
    omega
  have hcard : fuel ≤ K.toFinset.card := by
    have := Finset.card_le_card_of_injOn (fun a => r + a) hmaps hinj
    simpa using this
  have hlen : K.toFinset.card ≤ K.length := K.toFinset_card_le
  have hKlen : K.length = fuel - 1 := by
    rw [hK, List.length_append, List.length_map, List.length_map]
    omega
  omega

/-! ## C3 — generate_asset_id -/

/-- Provider for the C3 counterexample: a single pak holding asset id
`0xFFFF0000`. -/
def c3Provider : Provider :=
  ⟨[("A.pak", [(0xFFFF0000, ⟨"TXTR", [0]⟩)])], none⟩

/-- C3 counterexample: after `delete_asset(0xFFFF0000)` on a manager whose
pak index holds `0xFFFF0000`, the very first `generate_asset_id()` returns
`0xFFFF0000` — an id that is in the modification map (as a tombstone) and in
the header index, contradicting the claim that generated ids never collide
with known or tombstoned ids. -/
theorem C3_counterexample :
    (AMState.delete_asset (AMState.init c3Provider .ECHOES) 0xFFFF0000).map
        (fun st => ((st.generate_asset_id).1,
                    dlookup st.modified_resources 0xFFFF0000,
                    st.all_asset_ids.contains 0xFFFF0000))
      = .ok (0xFFFF0000, some none, true) := rfl

/-- C3 (amended): repeated `generate_asset_id()` calls return strictly
increasing values, none of which is an id that currently exists — that is,
none collides with a known non-tombstoned id or a live modification-map
entry.  (Tombstoned ids may be returned, as the counterexample shows.) -/
theorem C3_amended_generate_asset_id (st st2 : AMState)
    (hcounter : st2.next_generated_id = (st.generate_asset_id).2.next_generated_id) :
    st.does_asset_exists (st.generate_asset_id).1 = false
      ∧ (st.generate_asset_id).1 < (st2.generate_asset_id).1 := by
  constructor
  · exact nextFreeId_not_exists st _ _ (exists_free_in_window st st.next_generated_id)
  · show (st.generate_asset_id).1 < nextFreeId st2 _ st2.next_generated_id
    have hge := nextFreeId_ge st2
      (st2.modified_resources.length + st2.paks_for_asset_id.length + 1)
      st2.next_generated_id
    have h1 : (st.generate_asset_id).2.next_generated_id = (st.generate_asset_id).1 + 1 := rfl
    omega

/-- Witness for `C3_amended_generate_asset_id` at a concrete manager state. -/
theorem C3_amended_generate_asset_id_witness :
    (AMState.init c3Provider .ECHOES).does_asset_exists
        ((AMState.init c3Provider .ECHOES).generate_asset_id).1 = false
      ∧ ((AMState.init c3Provider .ECHOES).generate_asset_id).1
          < (((AMState.init c3Provider .ECHOES).generate_asset_id).2.generate_asset_id).1 :=
  C3_amended_generate_asset_id (AMState.init c3Provider .ECHOES)
    ((AMState.init c3Provider .ECHOES).generate_asset_id).2 rfl

/-! ## C1 — the dependency iterator's final element -/

/-- Provider for the C1 counterexample: the Echoes mlvl-ignore id
`0x7b2ea5b1` exists in a pak. -/
def c1Provider : Provider :=
  ⟨[("A.pak", [(0x7b2ea5b1, ⟨"TXTR", [0]⟩)])], none⟩

/-- A fresh Echoes manager over `c1Provider`. -/
def c1State : AMState := AMState.init c1Provider .ECHOES

/-- C1 counterexample: `0x7b2ea5b1` is valid for Echoes and exists in the
manager, yet the last dependency yielded by `get_dependencies_for_asset` for
it carries `exclude_from_mlvl = true` (the per-game override applies to the
self-edge too), contradicting the claim that the final self-dependency
always has the flag `false`. -/
theorem C1_counterexample :
    Game.ECHOES.is_valid_asset_id 0x7b2ea5b1 = true
      ∧ c1State.does_asset_exists 0x7b2ea5b1 = true
      ∧ (AMState.get_dependencies_for_asset (fun _ => []) c1State 0x7b2ea5b1 false).map
          (fun p => p.1.getLast?)
        = .ok (some ⟨"TXTR", 0x7b2ea5b1, true⟩) :=
  ⟨rfl, rfl, rfl⟩

/-- C1 (amended): for every asset id valid for the target game and currently
existing in the manager (with its type resolvable), the iterator is
non-empty and its last element is the asset itself, whose
`exclude_from_mlvl` flag is `false` unless the id belongs to the game's
mlvl-dependencies-to-ignore set, in which case it is `true`. -/
theorem C1_amended_final_self_dependency (computeDeps : Nat → List Dependency) (st : AMState)
    (asset_id : Nat) (t : String) (must_exist : Bool)
    (hvalid : st.target_game.is_valid_asset_id asset_id = true)
    (hexists : st.does_asset_exists asset_id = true)
    (htype : st.get_asset_type asset_id = .ok t) :
    ∃ deps st2,
      st.get_dependencies_for_asset computeDeps asset_id must_exist = .ok (deps, st2)
        ∧ deps ≠ []
        ∧ deps.getLast? = some
            ⟨t, asset_id, st.target_game.mlvl_dependencies_to_ignore.contains asset_id⟩ := by
  unfold AMState.get_dependencies_for_asset getDependenciesForAssetInner
  rw [hvalid, hexists, htype]
  simp only [Bool.not_true, Bool.false_eq_true, if_false]
  match hc : dlookup st.cached_dependencies asset_id with
  | some deps0 =>
    refine ⟨_, _, rfl, by simp, ?_⟩
    rw [List.map_append, List.getLast?_append]
    simp
  | none =>
    refine ⟨_, _, rfl, by simp, ?_⟩
    rw [List.map_append, List.getLast?_append]
    simp

/-- Witness for `C1_amended_final_self_dependency` on `c1State`, where the
override flag evaluates to `true`. -/
theorem C1_amended_final_self_dependency_witness :
    ∃ deps st2,
      AMState.get_dependencies_for_asset (fun _ => []) c1State 0x7b2ea5b1 false
          = .ok (deps, st2)
        ∧ deps ≠ []
        ∧ deps.getLast? = some ⟨"TXTR", 0x7b2ea5b1,
            c1State.target_game.mlvl_dependencies_to_ignore.contains 0x7b2ea5b1⟩ :=
  C1_amended_final_self_dependency (fun _ => []) c1State 0x7b2ea5b1 "TXTR" false rfl rfl rfl

/-! ## C4 — the mlvl-ignore override layer -/

/-- Provider for the C4 counterexample: an asset `0x100` whose external
parser reports a dependency on the Echoes ignore-set id with the flag
`False`, plus the ignored id itself. -/
def c4Provider : Provider :=
  ⟨[("A.pak", [(0x100, ⟨"MAPW", [0]⟩), (0x7b2ea5b1, ⟨"TXTR", [0]⟩)])], none⟩

/-- A fresh Echoes manager over `c4Provider`. -/
def c4State : AMState := AMState.init c4Provider .ECHOES

/-- The external dependency producer for the C4 counterexample. -/
def c4Deps : Nat → List Dependency :=
  fun i => if i == 0x100 then [⟨"TXTR", 0x7b2ea5b1, false⟩] else []

/-- C4 counterexample: querying `get_dependencies_for_asset(0x100)` — an id
outside the ignore set — yields the dependency `("TXTR", 0x7b2ea5b1)` with
`exclude_from_mlvl = false` even though `0x7b2ea5b1` is in the Echoes
ignore set: the override is keyed on the queried id, not on each yielded
dependency's id. -/
theorem C4_counterexample :
    (AMState.get_dependencies_for_asset c4Deps c4State 0x100 false).map (fun p => p.1)
        = .ok [⟨"TXTR", 0x7b2ea5b1, false⟩, ⟨"MAPW", 0x100, false⟩]
      ∧ Game.ECHOES.mlvl_dependencies_to_ignore.contains 0x7b2ea5b1 = true :=
  ⟨rfl, rfl⟩

/-- C4 (amended): the override is keyed on the queried asset id — whenever
the id passed to `get_dependencies_for_asset` belongs to the game's
mlvl-dependencies-to-ignore set, every yielded dependency carries
`exclude_from_mlvl = true` regardless of the flag the producing parser
supplied; dependencies on ignored ids yielded under other query ids keep
their source flag. -/
theorem C4_amended_override_on_query_id (computeDeps : Nat → List Dependency) (st : AMState)
    (asset_id : Nat) (must_exist : Bool) (deps : List Dependency) (st2 : AMState)
    (hmem : st.target_game.mlvl_dependencies_to_ignore.contains asset_id = true)
    (hok : st.get_dependencies_for_asset computeDeps asset_id must_exist = .ok (deps, st2)) :
    ∀ d ∈ deps, d.exclude_for_mlvl = true := by
  unfold AMState.get_dependencies_for_asset at hok
  rw [hmem] at hok
  match hinner : getDependenciesForAssetInner computeDeps st asset_id must_exist with
  | .error e => rw [hinner] at hok; exact absurd hok (by simp)
  | .ok (deps0, st3) =>
    rw [hinner] at hok
    simp only [Except.ok.injEq, Prod.mk.injEq] at hok
    intro d hd
    rw [← hok.1] at hd
    obtain ⟨d0, _, hd0⟩ := List.mem_map.mp hd
    rw [← hd0]
    simp

/-- Witness for `C4_amended_override_on_query_id`: querying the ignored id
itself on `c4State` forces the flag on. -/
theorem C4_amended_override_on_query_id_witness :
    (Dependency.mk "TXTR" 0x7b2ea5b1 true).exclude_for_mlvl = true :=
  C4_amended_override_on_query_id (fun _ => []) c4State 0x7b2ea5b1 false
    [⟨"TXTR", 0x7b2ea5b1, true⟩] _ rfl rfl ⟨"TXTR", 0x7b2ea5b1, true⟩ (by decide)

/-! ## C10 — delete_asset frame effect -/

/-- C10: for an existing asset id, `delete_asset` only tombstones the id in
the modification map and filters it out of every ensured set; the pak index,
type index, alias table, in-memory paks, dependency cache, counter, provider
and game are untouched — so `all_asset_ids` and `find_paks` answer exactly
as before. -/
theorem C10_delete_asset_frame (st : AMState) (asset_id : Nat)
    (hexists : st.does_asset_exists asset_id = true) :
    ∃ st2, st.delete_asset asset_id = .ok st2
      ∧ st2.modified_resources = dinsert st.modified_resources asset_id none
      ∧ st2.ensured_asset_ids
          = st.ensured_asset_ids.map (fun p => (p.1, p.2.filter (fun x => x != asset_id)))
      ∧ st2.paks_for_asset_id = st.paks_for_asset_id
      ∧ st2.types_for_asset_id = st.types_for_asset_id
      ∧ st2.custom_asset_ids = st.custom_asset_ids
      ∧ st2.in_memory_paks = st.in_memory_paks
      ∧ st2.cached_dependencies = st.cached_dependencies
      ∧ st2.next_generated_id = st.next_generated_id
      ∧ st2.provider = st.provider
      ∧ st2.target_game = st.target_game
      ∧ st2.all_asset_ids = st.all_asset_ids
      ∧ (∀ a, st2.find_paks a = st.find_paks a) := by
  unfold AMState.delete_asset
  rw [hexists]
  simp only [Bool.not_true, Bool.false_eq_true, if_false]
  exact ⟨_, rfl, rfl, rfl, rfl, rfl, rfl, rfl, rfl, rfl, rfl, rfl, rfl, fun a => rfl⟩

/-- Witness for `C10_delete_asset_frame` on the concrete `c1State`. -/
theorem C10_delete_asset_frame_witness :
    ∃ st2, c1State.delete_asset 0x7b2ea5b1 = .ok st2
      ∧ st2.modified_resources = dinsert c1State.modified_resources 0x7b2ea5b1 none
      ∧ st2.ensured_asset_ids
          = c1State.ensured_asset_ids.map (fun p => (p.1, p.2.filter (fun x => x != 0x7b2ea5b1)))
      ∧ st2.paks_for_asset_id = c1State.paks_for_asset_id
      ∧ st2.types_for_asset_id = c1State.types_for_asset_id
      ∧ st2.custom_asset_ids = c1State.custom_asset_ids
      ∧ st2.in_memory_paks = c1State.in_memory_paks
      ∧ st2.cached_dependencies = c1State.cached_dependencies
      ∧ st2.next_generated_id = c1State.next_generated_id
      ∧ st2.provider = c1State.provider
      ∧ st2.target_game = c1State.target_game
      ∧ st2.all_asset_ids = c1State.all_asset_ids
      ∧ (∀ a, st2.find_paks a = c1State.find_paks a) :=
  C10_delete_asset_frame c1State 0x7b2ea5b1 rfl

/-! ## C2 — state of the manager after save_modifications -/

theorem get_pak_provider (st : AMState) (p : String) (pak : PakData) (st2 : AMState)
    (h : st.get_pak p = .ok (pak, st2)) : st2.provider = st.provider := by
  unfold AMState.get_pak at h
  by_cases hens : (dlookup st.ensured_asset_ids p).isNone
  · rw [if_pos hens] at h; exact absurd h (by simp)
  · rw [if_neg hens] at h
    match hmem : dlookup st.in_memory_paks p with
    | some q =>
      rw [hmem] at h
      simp only [Except.ok.injEq, Prod.mk.injEq] at h
      rw [← h.2]
    | none =>
      rw [hmem] at h
      match hpr : dlookup st.provider.paks p with
      | none => rw [hpr] at h; exact absurd h (by simp)
      | some data =>
        rw [hpr] at h
        simp only [Except.ok.injEq, Prod.mk.injEq] at h
        rw [← h.2]

theorem findRawInPaks_provider (asset_id : Nat) (names : List String) (st : AMState)
    (raw : Option RawResource) (st2 : AMState)
    (h : findRawInPaks asset_id st names = .ok (raw, st2)) : st2.provider = st.provider := by
  induction names generalizing st raw with
  | nil =>
    simp only [findRawInPaks, Except.ok.injEq, Prod.mk.injEq] at h
    rw [← h.2]
  | cons p rest ih =>
    simp only [findRawInPaks] at h
    match hp : st.get_pak p with
    | .error e => rw [hp] at h; exact absurd h (by simp)
    | .ok (pak, st3) =>
      rw [hp] at h
      dsimp only at h
      have hp3 := get_pak_provider st p pak st3 hp
      match hg : pak.get_asset asset_id with
      | some r =>
        rw [hg] at h
        simp only [Except.ok.injEq, Prod.mk.injEq] at h
        rw [← h.2, hp3]
      | none =>
        rw [hg] at h
        rw [ih st3 raw h, hp3]

theorem get_raw_asset_provider (st : AMState) (asset_id : Nat)
    (raw : Option RawResource) (st2 : AMState)
    (h : st.get_raw_asset asset_id = .ok (raw, st2)) : st2.provider = st.provider := by
  unfold AMState.get_raw_asset at h
  match hm : dlookup st.modified_resources asset_id with
  | some none => rw [hm] at h; exact absurd h (by simp)
  | some (some r) =>
    rw [hm] at h
    simp only [Except.ok.injEq, Prod.mk.injEq] at h
    rw [← h.2]
  | none =>
    rw [hm] at h
    match hp : dlookup st.paks_for_asset_id asset_id with
    | none => rw [hp] at h; exact absurd h (by simp)
    | some names => rw [hp] at h; exact findRawInPaks_provider asset_id names st raw st2 h

theorem loadPaks_provider (names : List String) (st st2 : AMState)
    (h : loadPaks st names = .ok st2) : st2.provider = st.provider := by
  induction names generalizing st with
  | nil => simp only [loadPaks, Except.ok.injEq] at h; rw [← h]
  | cons p rest ih =>
    simp only [loadPaks] at h
    match hp : st.get_pak p with
    | .error e => rw [hp] at h; exact absurd h (by simp)
    | .ok (pak, st3) =>
      rw [hp] at h
      rw [ih st3 h, get_pak_provider st p pak st3 hp]

theorem collectCopyIds_provider (ids : List Nat) (copy : List (Nat × Option RawResource))
    (st : AMState) (copy2 : List (Nat × Option RawResource)) (st2 : AMState)
    (h : collectCopyIds copy st ids = .ok (copy2, st2)) : st2.provider = st.provider := by
  induction ids generalizing copy st with
  | nil =>
    simp only [collectCopyIds, Except.ok.injEq, Prod.mk.injEq] at h
    rw [← h.2]
  | cons asset_id rest ih =>
    simp only [collectCopyIds] at h
    by_cases hc : (dlookup copy asset_id).isSome
    · rw [if_pos hc] at h; exact ih copy st h
    · rw [if_neg hc] at h
      match hraw : st.get_raw_asset asset_id with
      | .error e => rw [hraw] at h; exact absurd h (by simp)
      | .ok (raw, st3) =>
        rw [hraw] at h
        rw [ih _ st3 h, get_raw_asset_provider st asset_id raw st3 hraw]

theorem collectCopyEntries_provider (entries : List (String × List Nat))
    (copy : List (Nat × Option RawResource)) (st : AMState)
    (copy2 : List (Nat × Option RawResource)) (st2 : AMState)
    (h : collectCopyEntries copy st entries = .ok (copy2, st2)) : st2.provider = st.provider := by
  induction entries generalizing copy st with
  | nil =>
    simp only [collectCopyEntries, Except.ok.injEq, Prod.mk.injEq] at h
    rw [← h.2]
  | cons entry rest ih =>
    simp only [collectCopyEntries] at h
    match hc : collectCopyIds copy st entry.2 with
    | .error e => rw [hc] at h; exact absurd h (by simp)
    | .ok (copy3, st3) =>
      rw [hc] at h
      rw [ih copy3 st3 h, collectCopyIds_provider entry.2 copy st copy3 st3 hc]

theorem savePak_provider (copy : List (Nat × Option RawResource)) (st : AMState)
    (out : List (String × PakData)) (pak_name : String) (st2 : AMState)
    (out2 : List (String × PakData))
    (h : savePak copy st out pak_name = .ok (st2, out2)) : st2.provider = st.provider := by
  unfold savePak at h
  match hm : dlookup st.in_memory_paks pak_name with
  | none => rw [hm] at h; exact absurd h (by simp)
  | some pak =>
    rw [hm] at h
    dsimp only at h
    match ha : applyModificationsToPak
        { st with in_memory_paks := st.in_memory_paks.filter (fun p => p.1 != pak_name) }
        pak_name pak with
    | .error e => rw [ha] at h; exact absurd h (by simp)
    | .ok pak2 =>
      rw [ha] at h
      dsimp only at h
      match he : dlookup st.ensured_asset_ids pak_name with
      | none => rw [he] at h; exact absurd h (by simp)
      | some ensured =>
        rw [he] at h
        dsimp only at h
        match hadd : addEnsuredToPak copy ensured pak2 with
        | .error e => rw [hadd] at h; exact absurd h (by simp)
        | .ok pak3 =>
          rw [hadd] at h
          simp only [Except.ok.injEq, Prod.mk.injEq] at h
          rw [← h.1]

theorem savePaksLoop_provider (names : List String) (copy : List (Nat × Option RawResource))
    (st : AMState) (out : List (String × PakData)) (st2 : AMState)
    (out2 : List (String × PakData))
    (h : savePaksLoop copy st out names = .ok (st2, out2)) : st2.provider = st.provider := by
  induction names generalizing st out with
  | nil =>
    simp only [savePaksLoop, Except.ok.injEq, Prod.mk.injEq] at h
    rw [← h.1]
  | cons p rest ih =>
    simp only [savePaksLoop] at h
    match hp : savePak copy st out p with
    | .error e => rw [hp] at h; exact absurd h (by simp)
    | .ok (st3, out3) =>
      rw [hp] at h
      rw [ih st3 out3 h, savePak_provider copy st out p st3 out3 hp]

/-- Provider for the C2 counterexample: asset 1 lives in `A.pak`, asset 2 in
`B.pak`. -/
def c2Provider : Provider :=
  ⟨[("A.pak", [(1, ⟨"TXTR", [7]⟩)]), ("B.pak", [(2, ⟨"STRG", [8]⟩)])], none⟩

/-- A fresh Echoes manager over `c2Provider`. -/
def c2State0 : AMState := AMState.init c2Provider .ECHOES

/-- The C2 counterexample run: ensure asset 1 into `B.pak`, replace asset 2,
save. -/
def c2Run : Except AMError (AMState × SaveOutput) :=
  Except.bind (AMState.ensure_present (fun _ => []) 2 c2State0 "B.pak" 1) (fun st =>
    Except.bind (st.replace_asset 2 ⟨"STRG", [9]⟩) (fun st2 =>
      st2.save_modifications))

/-- C2 counterexample: after the save, the manager's pak index says asset 1
lives in `A.pak` (the scan of the original provider), while scanning the
PAKs written under `out_root` puts asset 1 in `B.pak` (and contains no
`A.pak` at all, since unmodified paks are not copied).  The manager's header
index therefore does not equal the result of scanning the output directory.
The modification map is indeed empty. -/
theorem C2_counterexample :
    c2Run.map
        (fun r => (dlookup r.1.paks_for_asset_id 1,
                   dlookup (scanPaksForAssetId r.2.paks) 1,
                   dlookup r.2.paks "A.pak",
                   r.1.modified_resources))
      = .ok (some ["A.pak"], some ["B.pak"], none, []) := rfl

/-- C2 (amended): after `save_modifications` returns, the modification map is
empty and the header index (pak index, type index, ensured sets, custom
aliases) equals the result of re-scanning the PAKs of the manager's
original provider — not of `out_root`; the manager views the pre-save input
tree again, with all modifications cleared. -/
theorem C2_amended_save_rescans_original_provider (st st2 : AMState) (out : SaveOutput)
    (hok : st.save_modifications = .ok (st2, out)) :
    st2.modified_resources = []
      ∧ st2.paks_for_asset_id = scanPaksForAssetId st.provider.paks
      ∧ st2.types_for_asset_id = scanTypesForAssetId st.provider.paks
      ∧ st2.ensured_asset_ids = st.provider.paks.map (fun p => (p.1, []))
      ∧ st2.custom_asset_ids = (st.provider.custom_names).getD []
      ∧ st2.provider = st.provider := by
  unfold AMState.save_modifications at hok
  match hmp : collectModifiedPaks st with
  | .error e => rw [hmp] at hok; exact absurd hok (by simp)
  | .ok modified_paks =>
    rw [hmp] at hok
    dsimp only at hok
    match hld : loadPaks st modified_paks with
    | .error e => rw [hld] at hok; exact absurd hok (by simp)
    | .ok stL =>
      rw [hld] at hok
      dsimp only at hok
      match hcc : collectAssetsToCopy stL with
      | .error e => rw [hcc] at hok; exact absurd hok (by simp)
      | .ok (copy, stC) =>
        rw [hcc] at hok
        dsimp only at hok
        match hsv : savePaksLoop copy stC [] modified_paks with
        | .error e => rw [hsv] at hok; exact absurd hok (by simp)
        | .ok (stS, out_paks) =>
          rw [hsv] at hok
          dsimp only at hok
          simp only [Except.ok.injEq, Prod.mk.injEq] at hok
          have hprov : stS.provider = st.provider := by
            rw [savePaksLoop_provider modified_paks copy stC [] stS out_paks hsv,
              collectCopyEntries_provider stL.ensured_asset_ids [] stL copy stC hcc,
              loadPaks_provider modified_paks st stL hld]
          rw [← hok.1]
          unfold AMState.update_headers
          exact ⟨rfl, by rw [hprov], by rw [hprov], by rw [hprov], by rw [hprov], hprov⟩

/-- Witness for `C2_amended_save_rescans_original_provider`: saving the
fresh `c2State0` (no modifications) succeeds and the conclusion holds. -/
theorem C2_amended_save_rescans_original_provider_witness :
    ∃ st2 out, c2State0.save_modifications = .ok (st2, out)
      ∧ (st2.modified_resources = []
          ∧ st2.paks_for_asset_id = scanPaksForAssetId c2State0.provider.paks
          ∧ st2.types_for_asset_id = scanTypesForAssetId c2State0.provider.paks
          ∧ st2.ensured_asset_ids = c2State0.provider.paks.map (fun p => (p.1, []))
          ∧ st2.custom_asset_ids = (c2State0.provider.custom_names).getD []
          ∧ st2.provider = c2State0.provider) :=
  ⟨_, _, rfl, C2_amended_save_rescans_original_provider c2State0 _ _ rfl⟩

/-! ## C8 — the ensured/held disjointness invariant -/

theorem find?_map_replace {α β : Type} [BEq α] [LawfulBEq α]
    (m : List (α × β)) (k j : α) (v : β) (hne : (j == k) = false) :
    (m.map (fun p => if p.1 == k then (k, v) else p)).find? (fun p => p.1 == j)
      = m.find? (fun p => p.1 == j) := by
  induction m with
  | nil => rfl
  | cons a m ih =>
    simp only [List.map_cons, List.find?]
    by_cases ha : (a.1 == k) = true
    · rw [if_pos ha]
      have hak : a.1 = k := eq_of_beq ha
      have hkj : (k == j) = false := by
        rw [beq_eq_false_iff_ne] at hne ⊢
        exact fun hkj2 => hne hkj2.symm
      have haj : (a.1 == j) = false := by rw [hak]; exact hkj
      simp only [List.find?, hkj, haj, ih]
    · rw [if_neg ha]
      by_cases haj : (a.1 == j) = true
      · simp only [List.find?, haj]
      · simp only [List.find?, Bool.not_eq_true] at haj
        simp only [List.find?, haj, ih]

theorem dlookup_dinsert {α β : Type} [BEq α] [LawfulBEq α]
    (m : List (α × β)) (k j : α) (v : β) :
    dlookup (dinsert m k v) j = if j == k then some v else dlookup m j := by
  by_cases hjk : (j == k) = true
  · rw [if_pos hjk]
    have hj : j = k := eq_of_beq hjk
    subst hj
    unfold dinsert dlookup
    by_cases hmem : (m.find? (fun p => p.1 == j)).isSome
    · rw [if_pos hmem]
      induction m with
      | nil => simp at hmem
      | cons a m ih =>
        simp only [List.map_cons, List.find?]
        by_cases ha : (a.1 == j) = true
        · rw [if_pos ha]
          simp [List.find?]
        · rw [if_neg ha]
          simp only [Bool.not_eq_true] at ha
          simp only [List.find?, ha] at hmem ⊢
          exact ih hmem
    · rw [if_neg hmem]
      rw [Option.not_isSome_iff_eq_none] at hmem
      induction m with
      | nil => simp [List.find?]
      | cons a m ih =>
        simp only [List.find?] at hmem ⊢
        by_cases ha : (a.1 == j) = true
        · rw [ha] at hmem; simp at hmem
        · simp only [Bool.not_eq_true] at ha
          rw [ha] at hmem
          simp only [List.cons_append, List.find?, ha]
          exact ih hmem
  · simp only [Bool.not_eq_true] at hjk
    rw [if_neg (by simp [hjk])]
    unfold dinsert dlookup
    by_cases hmem : (m.find? (fun p => p.1 == k)).isSome
    · rw [if_pos hmem, find?_map_replace m k j v hjk]
    · rw [if_neg hmem, List.find?_append]
      have hkj : (k == j) = false := by
        rw [beq_eq_false_iff_ne] at hjk ⊢
        exact fun h => hjk h.symm
      have h1 : List.find? (fun p => p.1 == j) [(k, v)] = none := by
        simp [List.find?, hkj]
      rw [h1]
      simp

theorem dlookup_map_to_nil {α β : Type} [BEq α] (m : List (α × β)) (j : α) :
    dlookup (m.map (fun p => (p.1, ([] : List Nat)))) j
      = (dlookup m j).map (fun _ => ([] : List Nat)) := by
  induction m with
  | nil => rfl
  | cons a m ih =>
    unfold dlookup at ih ⊢
    simp only [List.map_cons, List.find?]
    by_cases ha : (a.1 == j) = true
    · simp only [ha]; rfl
    · simp only [Bool.not_eq_true] at ha
      simp only [ha, ih]

theorem dlookup_map_filter_vals {α : Type} [BEq α]
    (m : List (α × List Nat)) (g : Nat → Bool) (j : α) :
    dlookup (m.map (fun p => (p.1, p.2.filter g))) j
      = (dlookup m j).map (fun s => s.filter g) := by
  induction m with
  | nil => rfl
  | cons a m ih =>
    unfold dlookup at ih ⊢
    simp only [List.map_cons, List.find?]
    by_cases ha : (a.1 == j) = true
    · simp only [ha]; rfl
    · simp only [Bool.not_eq_true] at ha
      simp only [ha, ih]

theorem mem_sadd {α : Type} [BEq α] [LawfulBEq α] (s : List α) (x y : α) :
    y ∈ sadd s x ↔ y ∈ s ∨ y = x := by
  unfold sadd
  by_cases hc : s.contains x = true
  · rw [if_pos hc]
    constructor
    · exact fun h => Or.inl h
    · rintro (h | h)
      · exact h
      · rw [h]; simpa using hc
  · rw [if_neg hc]
    simp [List.mem_append]

/-- The invariant of claim C8: an ensured id of a pak is never an id that
pak already holds according to the pak index. -/
def EnsuredDisjoint (st : AMState) : Prop :=
  ∀ p s a pl, dlookup st.ensured_asset_ids p = some s → a ∈ s →
    dlookup st.paks_for_asset_id a = some pl → p ∉ pl

/-- The invariant only reads the ensured sets and the pak index. -/
theorem ensuredDisjoint_congr (st st2 : AMState)
    (hens : st2.ensured_asset_ids = st.ensured_asset_ids)
    (hpaks : st2.paks_for_asset_id = st.paks_for_asset_id)
    (h : EnsuredDisjoint st) : EnsuredDisjoint st2 := by
  intro p s a pl hs ha hpl
  rw [hens] at hs
  rw [hpaks] at hpl
  exact h p s a pl hs ha hpl

/-- Any state produced by `_update_headers` satisfies the invariant: every
ensured set is reset to empty. -/
theorem ensuredDisjoint_update_headers (st : AMState) :
    EnsuredDisjoint st.update_headers := by
  intro p s a pl hs ha hpl
  unfold AMState.update_headers at hs
  dsimp only at hs
  rw [dlookup_map_to_nil st.provider.paks p] at hs
  match hq : dlookup st.provider.paks p with
  | none => rw [hq] at hs; simp at hs
  | some q =>
    rw [hq] at hs
    have hs2 : some ([] : List Nat) = some s := hs
    have hs3 : s = [] := (Option.some.inj hs2).symm
    rw [hs3] at ha
    simp at ha

theorem not_mem_of_contains_false {α : Type} [BEq α] [LawfulBEq α] (l : List α) (x : α)
    (h : l.contains x = false) : x ∉ l := by
  intro hmem
  have : l.contains x = true := by simpa using hmem
  rw [this] at h
  exact absurd h (by simp)

/-- Method `add_new_asset`: resolve the name (alias table first, else the
external `resolve_asset_id`, passed in as `resolveName`), require the id to
be fresh, register the alias, seed the pak index with an empty set, store
the data via `replace_asset`, then `ensure_present` in each requested
pak. -/
def AMState.add_new_asset (resolveName : String → Nat) (computeDeps : Nat → List Dependency)
    (fuel : Nat) (st : AMState) (name : String) (new_data : RawResource)
    (in_paks : List String) : Except AMError AMState :=
  let asset_id :=
    match dlookup st.custom_asset_ids name with
    | some i => i
    | none => resolveName name
  if st.does_asset_exists asset_id then .error (.valueError "already exists")
  else
    let stR := { st with
      custom_asset_ids := dinsert st.custom_asset_ids name asset_id,
      paks_for_asset_id := dinsert st.paks_for_asset_id asset_id [] }
    match stR.replace_asset asset_id new_data with
    | .error e => .error e
    | .ok st2 =>
      in_paks.foldl
        (fun acc pak_name =>
          match acc with
          | .error e => .error e
          | .ok s => AMState.ensure_present computeDeps fuel s pak_name asset_id)
        (.ok st2)

/-- The mutating operations of claim C8. -/
inductive Op
  | addNewAsset (name : String) (data : RawResource) (in_paks : List String)
  | replaceAsset (asset_id : Nat) (data : RawResource)
  | deleteAsset (asset_id : Nat)
  | ensurePresent (pak_name : String) (asset_id : Nat)
  | saveModifications
deriving DecidableEq, Repr

/-- Run one operation against the manager. -/
def execOp (resolveName : String → Nat) (computeDeps : Nat → List Dependency) (fuel : Nat)
    (st : AMState) : Op → Except AMError AMState
  | .addNewAsset name data in_paks =>
    st.add_new_asset resolveName computeDeps fuel name data in_paks
  | .replaceAsset asset_id data => st.replace_asset asset_id data
  | .deleteAsset asset_id => st.delete_asset asset_id
  | .ensurePresent pak_name asset_id =>
    AMState.ensure_present computeDeps fuel st pak_name asset_id
  | .saveModifications => (st.save_modifications).map (fun r => r.1)

/-- Run a sequence of operations. -/
def execOps (resolveName : String → Nat) (computeDeps : Nat → List Dependency) (fuel : Nat) :
    AMState → List Op → Except AMError AMState
  | st, [] => .ok st
  | st, op :: rest =>
    match execOp resolveName computeDeps fuel st op with
    | .error e => .error e
    | .ok st2 => execOps resolveName computeDeps fuel st2 rest

theorem getDeps_fields (computeDeps : Nat → List Dependency) (st : AMState)
    (asset_id : Nat) (must_exist : Bool) (deps : List Dependency) (st2 : AMState)
    (h : st.get_dependencies_for_asset computeDeps asset_id must_exist = .ok (deps, st2)) :
    st2.ensured_asset_ids = st.ensured_asset_ids
      ∧ st2.paks_for_asset_id = st.paks_for_asset_id := by
  unfold AMState.get_dependencies_for_asset at h
  match hi : getDependenciesForAssetInner computeDeps st asset_id must_exist with
  | .error e => rw [hi] at h; exact absurd h (by simp)
  | .ok (deps0, st3) =>
    rw [hi] at h
    dsimp only at h
    simp only [Except.ok.injEq, Prod.mk.injEq] at h
    have hst : st3 = st2 := h.2
    subst hst
    unfold getDependenciesForAssetInner at hi
    by_cases hv : st.target_game.is_valid_asset_id asset_id = true
    · rw [hv] at hi
      simp only [Bool.not_true, Bool.false_eq_true, if_false] at hi
      by_cases he : st.does_asset_exists asset_id = true
      · rw [he] at hi
        simp only [Bool.not_true, Bool.false_eq_true, if_false] at hi
        match ht : st.get_asset_type asset_id with
        | .error e => rw [ht] at hi; exact absurd hi (by simp)
        | .ok asset_type =>
          rw [ht] at hi
          dsimp only at hi
          match hc : dlookup st.cached_dependencies asset_id with
          | some deps1 =>
            rw [hc] at hi
            simp only [Except.ok.injEq, Prod.mk.injEq] at hi
            rw [← hi.2]
            exact ⟨rfl, rfl⟩
          | none =>
            rw [hc] at hi
            simp only [Except.ok.injEq, Prod.mk.injEq] at hi
            rw [← hi.2]
            exact ⟨rfl, rfl⟩
      · simp only [Bool.not_eq_true] at he
        rw [he] at hi
        simp only [Bool.not_false, if_true] at hi
        cases must_exist with
        | true => exact absurd hi (by simp)
        | false =>
          simp only [Bool.false_eq_true, if_false, Except.ok.injEq, Prod.mk.injEq] at hi
          rw [← hi.2]
          exact ⟨rfl, rfl⟩
    · simp only [Bool.not_eq_true] at hv
      rw [hv] at hi
      simp only [Bool.not_false, if_true, Except.ok.injEq, Prod.mk.injEq] at hi
      rw [← hi.2]
      exact ⟨rfl, rfl⟩

theorem ensuredDisjoint_replace (st : AMState) (asset_id : Nat) (data : RawResource)
    (st2 : AMState) (hinv : EnsuredDisjoint st)
    (h : st.replace_asset asset_id data = .ok st2) : EnsuredDisjoint st2 := by
  unfold AMState.replace_asset at h
  by_cases he : st.does_asset_exists asset_id = true
  · rw [he] at h
    simp only [Bool.not_true, Bool.false_eq_true, if_false, Except.ok.injEq] at h
    rw [← h]
    exact ensuredDisjoint_congr st _ rfl rfl hinv
  · simp only [Bool.not_eq_true] at he
    rw [he] at h
    simp only [Bool.not_false, if_true] at h
    exact absurd h (by simp)

theorem ensuredDisjoint_delete (st : AMState) (asset_id : Nat)
    (st2 : AMState) (hinv : EnsuredDisjoint st)
    (h : st.delete_asset asset_id = .ok st2) : EnsuredDisjoint st2 := by
  unfold AMState.delete_asset at h
  by_cases he : st.does_asset_exists asset_id = true
  · rw [he] at h
    simp only [Bool.not_true, Bool.false_eq_true, if_false, Except.ok.injEq] at h
    rw [← h]
    intro p s a pl hs ha hpl
    dsimp only at hs hpl
    rw [dlookup_map_filter_vals st.ensured_asset_ids (fun x => x != asset_id) p] at hs
    match hq : dlookup st.ensured_asset_ids p with
    | none => rw [hq] at hs; exact absurd hs (by simp)
    | some s0 =>
      rw [hq] at hs
      have hs2 : some (s0.filter (fun x => x != asset_id)) = some s := hs
      have hs3 : s = s0.filter (fun x => x != asset_id) := (Option.some.inj hs2).symm
      rw [hs3] at ha
      exact hinv p s0 a pl hq (List.mem_of_mem_filter ha) hpl
  · simp only [Bool.not_eq_true] at he
    rw [he] at h
    simp only [Bool.not_false, if_true] at h
    exact absurd h (by simp)

theorem ensureFold_error (computeDeps : Nat → List Dependency) (fuel : Nat)
    (pak_name : String) (asset_id : Nat) :
    ∀ (deps : List Dependency) (e : AMError),
      deps.foldl
        (fun (acc : Except AMError AMState) dep =>
          match acc with
          | .error e => .error e
          | .ok stAcc =>
            if dep.id == asset_id then .ok stAcc
            else AMState.ensure_present computeDeps fuel stAcc pak_name dep.id)
        (.error e) = .error e := by
  intro deps
  induction deps with
  | nil => intro e; rfl
  | cons dep rest ih => intro e; rw [List.foldl_cons]; exact ih e

theorem ensureFold_preserves (computeDeps : Nat → List Dependency) (fuel : Nat)
    (pak_name : String) (asset_id : Nat)
    (ihe : ∀ st pn aid st2, EnsuredDisjoint st →
      AMState.ensure_present computeDeps fuel st pn aid = .ok st2 → EnsuredDisjoint st2) :
    ∀ (deps : List Dependency) (stAcc st2 : AMState), EnsuredDisjoint stAcc →
      deps.foldl
        (fun (acc : Except AMError AMState) dep =>
          match acc with
          | .error e => .error e
          | .ok stAcc =>
            if dep.id == asset_id then .ok stAcc
            else AMState.ensure_present computeDeps fuel stAcc pak_name dep.id)
        (.ok stAcc) = .ok st2 → EnsuredDisjoint st2 := by
  intro deps
  induction deps with
  | nil =>
    intro stAcc st2 hinv h
    simp only [List.foldl_nil, Except.ok.injEq] at h
    rw [← h]
    exact hinv
  | cons dep rest ih =>
    intro stAcc st2 hinv h
    rw [List.foldl_cons] at h
    by_cases hd : (dep.id == asset_id) = true
    · simp only [hd, if_true] at h
      exact ih stAcc st2 hinv h
    · simp only [Bool.not_eq_true] at hd
      simp only [hd, Bool.false_eq_true, if_false] at h
      match he : AMState.ensure_present computeDeps fuel stAcc pak_name dep.id with
      | .error e =>
        rw [he, ensureFold_error computeDeps fuel pak_name asset_id rest e] at h
        exact absurd h (by simp)
      | .ok s2 =>
        rw [he] at h
        exact ih s2 st2 (ihe stAcc pak_name dep.id s2 hinv he) h

theorem ensuredDisjoint_ensure (computeDeps : Nat → List Dependency) :
    ∀ (fuel : Nat) (st : AMState) (pak_name : String) (asset_id : Nat) (st2 : AMState),
      EnsuredDisjoint st →
      AMState.ensure_present computeDeps fuel st pak_name asset_id = .ok st2 →
      EnsuredDisjoint st2 := by
  intro fuel
  induction fuel with
  | zero =>
    intro st pak_name asset_id st2 _ h
    exact absurd h (by simp [AMState.ensure_present])
  | succ fuel ih =>
    intro st pak_name asset_id st2 hinv h
    rw [AMState.ensure_present] at h
    match hens : dlookup st.ensured_asset_ids pak_name with
    | none => rw [hens] at h; exact absurd h (by simp)
    | some ensured =>
      rw [hens] at h
      dsimp only at h
      by_cases hex : st.does_asset_exists asset_id = true
      · rw [hex] at h
        simp only [Bool.not_true, Bool.false_eq_true, if_false] at h
        match hpaks : dlookup st.paks_for_asset_id asset_id with
        | none => rw [hpaks] at h; exact absurd h (by simp)
        | some pak_names =>
          rw [hpaks] at h
          dsimp only at h
          by_cases hc : pak_names.contains pak_name = true
          · rw [if_pos hc] at h
            match hg : st.get_dependencies_for_asset computeDeps asset_id false with
            | .error e => rw [hg] at h; exact absurd h (by simp)
            | .ok (deps, st3) =>
              rw [hg] at h
              dsimp only at h
              have hfields := getDeps_fields computeDeps st asset_id false deps st3 hg
              have hinv3 : EnsuredDisjoint st3 :=
                ensuredDisjoint_congr st st3 hfields.1 hfields.2 hinv
              exact ensureFold_preserves computeDeps fuel pak_name asset_id ih deps st3 st2
                hinv3 h
          · rw [if_neg hc] at h
            simp only [Bool.not_eq_true] at hc
            set stIns : AMState := { st with
              ensured_asset_ids :=
                dinsert st.ensured_asset_ids pak_name (sadd ensured asset_id) } with hstIns
            have hinvIns : EnsuredDisjoint stIns := by
              intro p s a pl hs ha hpl
              rw [hstIns] at hs hpl
              dsimp only at hs hpl
              rw [dlookup_dinsert st.ensured_asset_ids pak_name p (sadd ensured asset_id)]
                at hs
              by_cases hpb : (p == pak_name) = true
              · have hp : p = pak_name := eq_of_beq hpb
                rw [if_pos hpb] at hs
                have hseq : s = sadd ensured asset_id := (Option.some.inj hs).symm
                rw [hseq] at ha
                rcases (mem_sadd ensured asset_id a).mp ha with hmem | heq
                · rw [hp]
                  exact hinv pak_name ensured a pl hens hmem hpl
                · rw [heq] at hpl
                  have hpleq : pl = pak_names := by
                    rw [hpaks] at hpl
                    exact (Option.some.inj hpl).symm
                  rw [hp, hpleq]
                  exact not_mem_of_contains_false pak_names pak_name hc
              · simp only [hpb, Bool.false_eq_true, if_false] at hs
                exact hinv p s a pl hs ha hpl
            match hg : stIns.get_dependencies_for_asset computeDeps asset_id false with
            | .error e => rw [hg] at h; exact absurd h (by simp)
            | .ok (deps, st3) =>
              rw [hg] at h
              dsimp only at h
              have hfields := getDeps_fields computeDeps stIns asset_id false deps st3 hg
              have hinv3 : EnsuredDisjoint st3 :=
                ensuredDisjoint_congr stIns st3 hfields.1 hfields.2 hinvIns
              exact ensureFold_preserves computeDeps fuel pak_name asset_id ih deps st3 st2
                hinv3 h
      · simp only [Bool.not_eq_true] at hex
        rw [hex] at h
        simp only [Bool.not_false, if_true] at h
        exact absurd h (by simp)

theorem ensurePaksFold_error (computeDeps : Nat → List Dependency) (fuel : Nat)
    (asset_id : Nat) :
    ∀ (names : List String) (e : AMError),
      names.foldl
        (fun (acc : Except AMError AMState) pak_name =>
          match acc with
          | .error e => .error e
          | .ok s => AMState.ensure_present computeDeps fuel s pak_name asset_id)
        (.error e) = .error e := by
  intro names
  induction names with
  | nil => intro e; rfl
  | cons n rest ih => intro e; rw [List.foldl_cons]; exact ih e

theorem ensurePaksFold_preserves (computeDeps : Nat → List Dependency) (fuel : Nat)
    (asset_id : Nat) :
    ∀ (names : List String) (stAcc st2 : AMState), EnsuredDisjoint stAcc →
      names.foldl
        (fun (acc : Except AMError AMState) pak_name =>
          match acc with
          | .error e => .error e
          | .ok s => AMState.ensure_present computeDeps fuel s pak_name asset_id)
        (.ok stAcc) = .ok st2 → EnsuredDisjoint st2 := by
  intro names
  induction names with
  | nil =>
    intro stAcc st2 hinv h
    simp only [List.foldl_nil, Except.ok.injEq] at h
    rw [← h]
    exact hinv
  | cons n rest ih =>
    intro stAcc st2 hinv h
    rw [List.foldl_cons] at h
    dsimp only at h
    match he : AMState.ensure_present computeDeps fuel stAcc n asset_id with
    | .error e =>
      rw [he, ensurePaksFold_error computeDeps fuel asset_id rest e] at h
      exact absurd h (by simp)
    | .ok s2 =>
      rw [he] at h
      exact ih s2 st2 (ensuredDisjoint_ensure computeDeps fuel stAcc n asset_id s2 hinv he) h

theorem ensuredDisjoint_add_new (resolveName : String → Nat)
    (computeDeps : Nat → List Dependency) (fuel : Nat) (st : AMState) (name : String)
    (data : RawResource) (in_paks : List String) (st2 : AMState)
    (hinv : EnsuredDisjoint st)
    (h : st.add_new_asset resolveName computeDeps fuel name data in_paks = .ok st2) :
    EnsuredDisjoint st2 := by
  unfold AMState.add_new_asset at h
  dsimp only at h
  set asset_id :=
    (match dlookup st.custom_asset_ids name with
      | some i => i
      | none => resolveName name) with hid
  by_cases hex : st.does_asset_exists asset_id = true
  · rw [hex] at h
    simp only [if_true] at h
    exact absurd h (by simp)
  · simp only [Bool.not_eq_true] at hex
    rw [hex] at h
    simp only [Bool.false_eq_true, if_false] at h
    set stR : AMState := { st with
      custom_asset_ids := dinsert st.custom_asset_ids name asset_id,
      paks_for_asset_id := dinsert st.paks_for_asset_id asset_id [] } with hstR
    have hinvR : EnsuredDisjoint stR := by
      intro p s a pl hs ha hpl
      rw [hstR] at hs hpl
      dsimp only at hs hpl
      rw [dlookup_dinsert st.paks_for_asset_id asset_id a []] at hpl
      by_cases hab : (a == asset_id) = true
      · rw [if_pos hab] at hpl
        have : pl = [] := (Option.some.inj hpl).symm
        rw [this]
        simp
      · simp only [hab, Bool.false_eq_true, if_false] at hpl
        exact hinv p s a pl hs ha hpl
    match hr : stR.replace_asset asset_id data with
    | .error e => rw [hr] at h; exact absurd h (by simp)
    | .ok stM =>
      rw [hr] at h
      dsimp only at h
      have hinvM : EnsuredDisjoint stM :=
        ensuredDisjoint_replace stR asset_id data stM hinvR hr
      exact ensurePaksFold_preserves computeDeps fuel asset_id in_paks stM st2 hinvM h

theorem save_result_shape (st st2 : AMState) (out : SaveOutput)
    (h : st.save_modifications = .ok (st2, out)) :
    ∃ stS : AMState, st2 = AMState.update_headers { stS with modified_resources := [] } := by
  unfold AMState.save_modifications at h
  match hmp : collectModifiedPaks st with
  | .error e => rw [hmp] at h; exact absurd h (by simp)
  | .ok modified_paks =>
    rw [hmp] at h
    dsimp only at h
    match hld : loadPaks st modified_paks with
    | .error e => rw [hld] at h; exact absurd h (by simp)
    | .ok stL =>
      rw [hld] at h
      dsimp only at h
      match hcc : collectAssetsToCopy stL with
      | .error e => rw [hcc] at h; exact absurd h (by simp)
      | .ok (copy, stC) =>
        rw [hcc] at h
        dsimp only at h
        match hsv : savePaksLoop copy stC [] modified_paks with
        | .error e => rw [hsv] at h; exact absurd h (by simp)
        | .ok (stS, out_paks) =>
          rw [hsv] at h
          dsimp only at h
          simp only [Except.ok.injEq, Prod.mk.injEq] at h
          exact ⟨stS, h.1.symm⟩

theorem ensuredDisjoint_execOp (resolveName : String → Nat)
    (computeDeps : Nat → List Dependency) (fuel : Nat) (st : AMState) (op : Op)
    (st2 : AMState) (hinv : EnsuredDisjoint st)
    (h : execOp resolveName computeDeps fuel st op = .ok st2) : EnsuredDisjoint st2 := by
  match op with
  | .addNewAsset name data in_paks =>
    exact ensuredDisjoint_add_new resolveName computeDeps fuel st name data in_paks st2 hinv h
  | .replaceAsset asset_id data =>
    exact ensuredDisjoint_replace st asset_id data st2 hinv h
  | .deleteAsset asset_id =>
    exact ensuredDisjoint_delete st asset_id st2 hinv h
  | .ensurePresent pak_name asset_id =>
    exact ensuredDisjoint_ensure computeDeps fuel st pak_name asset_id st2 hinv h
  | .saveModifications =>
    unfold execOp at h
    dsimp only at h
    match hs : st.save_modifications with
    | .error e => rw [hs] at h; exact absurd h (by simp [Except.map])
    | .ok (stS, out) =>
      rw [hs] at h
      simp only [Except.map, Except.ok.injEq] at h
      obtain ⟨stS2, hshape⟩ := save_result_shape st stS out hs
      rw [← h, hshape]
      exact ensuredDisjoint_update_headers _

theorem ensuredDisjoint_execOps (resolveName : String → Nat)
    (computeDeps : Nat → List Dependency) (fuel : Nat) :
    ∀ (ops : List Op) (st0 st2 : AMState), EnsuredDisjoint st0 →
      execOps resolveName computeDeps fuel st0 ops = .ok st2 → EnsuredDisjoint st2 := by
  intro ops
  induction ops with
  | nil =>
    intro st0 st2 hinv h
    simp only [execOps, Except.ok.injEq] at h
    rw [← h]
    exact hinv
  | cons op rest ih =>
    intro st0 st2 hinv h
    simp only [execOps] at h
    match hop : execOp resolveName computeDeps fuel st0 op with
    | .error e => rw [hop] at h; exact absurd h (by simp)
    | .ok st1 =>
      rw [hop] at h
      exact ih st1 st2
        (ensuredDisjoint_execOp resolveName computeDeps fuel st0 op st1 hinv hop) h

/-- C8: in every state reachable from a freshly constructed manager by any
sequence of `add_new_asset`, `replace_asset`, `delete_asset`,
`ensure_present` and `save_modifications` operations, every id ensured for a
pak is absent from that pak according to the pak index: a PAK never ensures
an asset it already holds. -/
theorem C8_ensured_disjoint_invariant (resolveName : String → Nat)
    (computeDeps : Nat → List Dependency) (fuel : Nat) (provider : Provider) (game : Game)
    (ops : List Op) (st2 : AMState)
    (h : execOps resolveName computeDeps fuel (AMState.init provider game) ops = .ok st2) :
    EnsuredDisjoint st2 :=
  ensuredDisjoint_execOps resolveName computeDeps fuel ops (AMState.init provider game) st2
    (ensuredDisjoint_update_headers _) h

/-- The final state of a concrete operation run, for the C8 witness. -/
def c8RunState : AMState :=
  match execOps (fun _ => 0) (fun _ => []) 2 (AMState.init c2Provider .ECHOES)
      [Op.ensurePresent "B.pak" 1, Op.deleteAsset 2] with
  | .ok st => st
  | .error _ => AMState.init c2Provider .ECHOES

/-- Witness for `C8_ensured_disjoint_invariant` on a concrete run. -/
theorem C8_ensured_disjoint_invariant_witness : EnsuredDisjoint c8RunState :=
  C8_ensured_disjoint_invariant (fun _ => 0) (fun _ => []) 2 c2Provider .ECHOES
    [Op.ensurePresent "B.pak" 1, Op.deleteAsset 2] c8RunState rfl

/-! ## C9 — the ISO file provider constructor (`IsoFileProvider.__init__`) -/

/-- A disc data partition as returned by the external `nod` library, reduced
to what `IsoFileProvider` consumes: its file list and DOL bytes. -/
structure NodPartition where
  files : List String
  dol : List Nat
deriving DecidableEq, Repr

/-- A GameCube/Wii disc handle from `nod`; `data_partition` models
`disc.get_data_partition()`, which may be absent. -/
structure NodDisc where
  data_partition : Option NodPartition
deriving DecidableEq, Repr

/-- Modelled from the spec: the `InvalidImage` error of §6/§7.  The provided
core raises Python `ValueError` with these messages at the two failure sites
of `IsoFileProvider.__init__`; `exceptions.py` itself is outside the
provided sources, so the spec's error label names this failure. -/
inductive IsoError
  | invalidImage (msg : String)
deriving DecidableEq, Repr

/-- The constructed `IsoFileProvider`: the fields assigned by
`__init__` on success. -/
structure IsoFileProvider where
  disc : NodDisc
  data : NodPartition
  all_files : List String
  iso_path : String
deriving DecidableEq, Repr

/-- Constructor `IsoFileProvider.__init__`: `nod.open_disc_from_image` (the
external library, passed in as a function) must yield a disc, and the disc
must have a data partition; otherwise the construction fails.  On success
the fields are assigned exactly as in the source. -/
def IsoFileProvider.init (open_disc_from_image : String → Option NodDisc)
    (iso_path : String) : Except IsoError IsoFileProvider :=
  match open_disc_from_image iso_path with
  | none => .error (.invalidImage (iso_path ++ " is not a GC/Wii ISO"))
  | some disc =>
    match disc.data_partition with
    | none => .error (.invalidImage (iso_path ++ " does not have data"))
    | some data => .ok ⟨disc, data, data.files, iso_path⟩

/-- C9: constructing the ISO file provider fails with the `InvalidImage`
error both when the input cannot be interpreted as a GC/Wii disc image and
when the image has no data partition; when both succeed it is constructed
normally with the partition's file list. -/
theorem C9_iso_provider_init (open_disc : String → Option NodDisc) (iso_path : String) :
    (open_disc iso_path = none →
        IsoFileProvider.init open_disc iso_path
          = .error (.invalidImage (iso_path ++ " is not a GC/Wii ISO")))
      ∧ (∀ disc, open_disc iso_path = some disc → disc.data_partition = none →
          IsoFileProvider.init open_disc iso_path
            = .error (.invalidImage (iso_path ++ " does not have data")))
      ∧ (∀ disc data, open_disc iso_path = some disc → disc.data_partition = some data →
          IsoFileProvider.init open_disc iso_path = .ok ⟨disc, data, data.files, iso_path⟩) := by
  refine ⟨?_, ?_, ?_⟩
  · intro h
    unfold IsoFileProvider.init
    rw [h]
  · intro disc h hd
    unfold IsoFileProvider.init
    rw [h]
    dsimp only
    rw [hd]
  · intro disc data h hd
    unfold IsoFileProvider.init
    rw [h]
    dsimp only
    rw [hd]

/-- Witness for `C9_iso_provider_init` at concrete inputs covering all three
branches. -/
theorem C9_iso_provider_init_witness :
    IsoFileProvider.init (fun _ => none) "bad.iso"
        = .error (.invalidImage ("bad.iso" ++ " is not a GC/Wii ISO"))
      ∧ IsoFileProvider.init (fun _ => some ⟨none⟩) "nodata.iso"
        = .error (.invalidImage ("nodata.iso" ++ " does not have data"))
      ∧ IsoFileProvider.init (fun _ => some ⟨some ⟨["sys/main.dol"], [0]⟩⟩) "ok.iso"
        = .ok ⟨⟨some ⟨["sys/main.dol"], [0]⟩⟩, ⟨["sys/main.dol"], [0]⟩,
            ["sys/main.dol"], "ok.iso"⟩ :=
  ⟨(C9_iso_provider_init (fun _ => none) "bad.iso").1 rfl,
   (C9_iso_provider_init (fun _ => some ⟨none⟩) "nodata.iso").2.1 ⟨none⟩ rfl rfl,
   (C9_iso_provider_init (fun _ => some ⟨some ⟨["sys/main.dol"], [0]⟩⟩) "ok.iso").2.2
     ⟨some ⟨["sys/main.dol"], [0]⟩⟩ ⟨["sys/main.dol"], [0]⟩ rfl rfl⟩

/-! ## MREA compressed-block encoder
(`formats/mrea.py`, `MREAConstruct._encode_compressed_blocks`).

The LZO codec (`retro_data_structures/compression.py`) is outside the
provided core; `LZOCompressedBlock(...).build` enters as the abstract
`compress : List Nat → List Nat` parameter. -/

/-- The category list `_all_categories` of `mrea.py`, in declared order. -/
def all_categories : List String :=
  ["geometry_section", "unknown_section_2", "script_layers_section",
   "generated_script_objects_section", "collision_section", "unknown_section_1",
   "lights_section", "visibility_tree_section", "path_section",
   "area_octree_section", "portal_area_section", "static_geometry_map_section"]

/-- Zero-pad a byte string to the next 32-byte boundary
(`item.ljust(len(item) + (-len(item) % 32), b"\x00")`). -/
def pad32 (b : List Nat) : List Nat :=
  b ++ List.replicate ((32 - b.length % 32) % 32) 0

/-- Helper `_start_new_group`: the argument names mirror the source,
including the fact that the call site passes `previous_label` for
`curr_label` and the current `cat_label` for `prev_label`. -/
def start_new_group (group_size section_size : Nat) (curr_label prev_label : String) : Bool :=
  if group_size == 0 then false
  else if group_size + section_size > 0x20000 then true
  else if curr_label == "script_layers_section" then true
  else if prev_label == "script_layers_section" then true
  else if curr_label == "generated_script_objects_section" then true
  else if prev_label == "generated_script_objects_section" then true
  else false

/-- The compressed-block header `Container` of `add_group`. -/
structure CompressedBlockHeader where
  buffer_size : Nat
  uncompressed_size : Nat
  compressed_size : Nat
  data_section_count : Nat
deriving DecidableEq, Repr

/-- One emitted block: the header and payload of the source's
`Container(header=..., data=...)` plus, recorded for the statements below,
the labeled group of sections the block was built from (the source's
`current_group`, whose length is already `data_section_count`). -/
structure CompressedBlock where
  header : CompressedBlockHeader
  data : List Nat
  sections : List (String × List Nat)
deriving DecidableEq, Repr

/-- The group payload: each section zero-padded to 32 bytes, concatenated
(`merged_and_padded_group`). -/
def mergedAndPadded (group : List (String × List Nat)) : List Nat :=
  (group.map (fun s => pad32 s.2)).flatten

/-- Helper `add_group`: try LZO on the padded group; keep the compressed
bytes only if they are strictly smaller than the unpadded group size even
after 32-byte alignment, adding `0x120` to `buffer_size`; otherwise emit the
payload uncompressed with `compressed_size = 0`. -/
def add_group (compress : List Nat → List Nat) (group : List (String × List Nat)) :
    CompressedBlock :=
  let current_group_size := (group.map (fun s => s.2.length)).sum
  let merged_and_padded_group := mergedAndPadded group
  let data := compress merged_and_padded_group
  let compressed_size := data.length
  let compressed_pad := (32 - compressed_size % 32) % 32
  if compressed_size + compressed_pad < current_group_size then
    ⟨⟨current_group_size + 0x120, current_group_size, compressed_size, group.length⟩,
      data, group⟩
  else
    ⟨⟨current_group_size, current_group_size, 0, group.length⟩,
      merged_and_padded_group, group⟩

/-- Stable insertion (into an already sorted prefix) for the start-offset
sort; ties keep their original order, like Python's stable `sort`. -/
def insertAfterEq (acc : List (String × Nat)) (x : String × Nat) : List (String × Nat) :=
  match acc with
  | [] => [x]
  | y :: ys => if y.2 ≤ x.2 then y :: insertAfterEq ys x else x :: y :: ys

/-- `filtered_starts.sort(key=lambda it: it[1])`, stable. -/
def sortByStart (l : List (String × Nat)) : List (String × Nat) :=
  l.foldl insertAfterEq []

/-- The per-index label: the last category whose start is at or before the
index (`all_garbage[-1]`; the source would raise on an empty list, modelled
by the empty label). -/
def cat_label_for (category_starts : List (String × Nat)) (i : Nat) : String :=
  match (category_starts.filter (fun p => p.2 ≤ i)).getLast? with
  | some p => p.1
  | none => ""

/-- One iteration of the grouping loop of `_encode_compressed_blocks`: the
accumulator carries the emitted blocks, `current_group` and
`previous_label`. -/
def encode_step (compress : List Nat → List Nat)
    (acc : List CompressedBlock × List (String × List Nat) × String)
    (ls : String × List Nat) : List CompressedBlock × List (String × List Nat) × String :=
  if start_new_group ((acc.2.1.map (fun s => s.2.length)).sum) ls.2.length acc.2.2 ls.1 then
    (acc.1 ++ [add_group compress acc.2.1], [ls], ls.1)
  else
    (acc.1, acc.2.1 ++ [ls], ls.1)

/-- Method `_encode_compressed_blocks`: filter and stably sort the category
starts, label each data section by its category, run the grouping loop and
flush the final group. -/
def encode_compressed_blocks (compress : List Nat → List Nat)
    (data_sections : List (List Nat)) (category_starts : List (String × Option Nat)) :
    List CompressedBlock :=
  let filtered_starts := category_starts.filterMap (fun p => p.2.map (fun s => (p.1, s)))
  let sorted_starts := sortByStart filtered_starts
  let labeled := data_sections.enum.map (fun p => (cat_label_for sorted_starts p.1, p.2))
  let final := labeled.foldl (encode_step compress) ([], [], "")
  final.1 ++ [add_group compress final.2.1]

theorem add_group_invariant (compress : List Nat → List Nat)
    (group : List (String × List Nat)) :
    ((add_group compress group).header.compressed_size = 0
        ∧ (add_group compress group).data = mergedAndPadded (add_group compress group).sections)
      ∨ ((add_group compress group).header.compressed_size
            + (32 - (add_group compress group).header.compressed_size % 32) % 32
            < (add_group compress group).header.uncompressed_size
          ∧ (add_group compress group).header.buffer_size
            = (add_group compress group).header.uncompressed_size + 0x120) := by
  unfold add_group
  by_cases hc : (compress (mergedAndPadded group)).length
      + (32 - (compress (mergedAndPadded group)).length % 32) % 32
      < (group.map (fun s => s.2.length)).sum
  · rw [if_pos hc]
    exact Or.inr ⟨hc, rfl⟩
  · rw [if_neg hc]
    exact Or.inl ⟨rfl, rfl⟩

theorem encode_fold_shape (compress : List Nat → List Nat) :
    ∀ (labeled : List (String × List Nat))
      (acc : List CompressedBlock × List (String × List Nat) × String),
      (∀ b ∈ acc.1, ∃ g, b = add_group compress g) →
      ∀ b ∈ (labeled.foldl (encode_step compress) acc).1, ∃ g, b = add_group compress g := by
  intro labeled
  induction labeled with
  | nil => intro acc hacc b hb; exact hacc b hb
  | cons ls rest ih =>
    intro acc hacc b hb
    rw [List.foldl_cons] at hb
    refine ih (encode_step compress acc ls) ?_ b hb
    intro b2 hb2
    unfold encode_step at hb2
    by_cases hs : start_new_group ((acc.2.1.map (fun s => s.2.length)).sum) ls.2.length
        acc.2.2 ls.1 = true
    · rw [if_pos hs] at hb2
      dsimp only at hb2
      rcases List.mem_append.mp hb2 with h1 | h2
      · exact hacc b2 h1
      · exact ⟨acc.2.1, (List.mem_singleton.mp h2)⟩
    · rw [if_neg hs] at hb2
      exact hacc b2 hb2

theorem encode_blocks_shape (compress : List Nat → List Nat)
    (data_sections : List (List Nat)) (category_starts : List (String × Option Nat)) :
    ∀ b ∈ encode_compressed_blocks compress data_sections category_starts,
      ∃ g, b = add_group compress g := by
  intro b hb
  unfold encode_compressed_blocks at hb
  dsimp only at hb
  rcases List.mem_append.mp hb with h1 | h2
  · exact encode_fold_shape compress _ ([], [], "") (by intro b2 hb2; simp at hb2) b h1
  · exact ⟨_, List.mem_singleton.mp h2⟩

/-- C5: every block emitted by the compressed-block encoder either has
`compressed_size = 0` and stores its group payload uncompressed, or its
compressed size plus the 32-byte alignment padding is strictly below the
uncompressed size and `buffer_size` is the uncompressed payload size plus
`0x120`. -/
theorem C5_compression_invariant (compress : List Nat → List Nat)
    (data_sections : List (List Nat)) (category_starts : List (String × Option Nat))
    (b : CompressedBlock)
    (hb : b ∈ encode_compressed_blocks compress data_sections category_starts) :
    (b.header.compressed_size = 0 ∧ b.data = mergedAndPadded b.sections)
      ∨ (b.header.compressed_size + (32 - b.header.compressed_size % 32) % 32
            < b.header.uncompressed_size
          ∧ b.header.buffer_size = b.header.uncompressed_size + 0x120) := by
  obtain ⟨g, hg⟩ := encode_blocks_shape compress data_sections category_starts b hb
  rw [hg]
  exact add_group_invariant compress g

/-- Witness for `C5_compression_invariant` on a one-section input. -/
theorem C5_compression_invariant_witness :
    ((add_group (fun x => x) [("geometry_section", [0])]).header.compressed_size = 0
        ∧ (add_group (fun x => x) [("geometry_section", [0])]).data
          = mergedAndPadded (add_group (fun x => x) [("geometry_section", [0])]).sections)
      ∨ ((add_group (fun x => x) [("geometry_section", [0])]).header.compressed_size
            + (32 - (add_group (fun x => x)
                [("geometry_section", [0])]).header.compressed_size % 32) % 32
            < (add_group (fun x => x) [("geometry_section", [0])]).header.uncompressed_size
          ∧ (add_group (fun x => x) [("geometry_section", [0])]).header.buffer_size
            = (add_group (fun x => x)
                [("geometry_section", [0])]).header.uncompressed_size + 0x120) :=
  C5_compression_invariant (fun x => x) [[0]] [("geometry_section", some 0)]
    (add_group (fun x => x) [("geometry_section", [0])]) (by decide)

/-! ## C6 — script-section isolation and header-offset monotonicity -/

/-- Whether a label is one of the two script categories singled out by the
boundary rule. -/
def is_script_label (l : String) : Bool :=
  l == "script_layers_section" || l == "generated_script_objects_section"

/-- A block respects the script boundary rule: it is either exactly one
script-category section, or contains no script-category section at all. -/
def pureBlock (b : CompressedBlock) : Prop :=
  (∃ s, b.sections = [s] ∧ is_script_label s.1 = true)
    ∨ (∀ s ∈ b.sections, is_script_label s.1 = false)

/-- The same property for a group still being accumulated. -/
def pureGroup (g : List (String × List Nat)) : Prop :=
  (∃ s, g = [s] ∧ is_script_label s.1 = true)
    ∨ (∀ s ∈ g, is_script_label s.1 = false)

theorem pureGroup_singleton (s : String × List Nat) : pureGroup [s] := by
  by_cases h : is_script_label s.1 = true
  · exact Or.inl ⟨s, rfl, h⟩
  · refine Or.inr ?_
    intro t ht
    rw [List.mem_singleton.mp ht]
    revert h
    cases is_script_label s.1 <;> simp

theorem start_new_group_false (group_size section_size : Nat) (a b : String)
    (h : start_new_group group_size section_size a b = false) :
    group_size = 0 ∨ (is_script_label a = false ∧ is_script_label b = false) := by
  unfold start_new_group at h
  by_cases h0 : (group_size == 0) = true
  · exact Or.inl (by simpa using h0)
  · refine Or.inr ?_
    rw [if_neg (by simp [h0])] at h
    by_cases hov : group_size + section_size > 0x20000
    · rw [if_pos hov] at h; exact absurd h (by simp)
    · rw [if_neg hov] at h
      unfold is_script_label
      by_cases ha1 : (a == "script_layers_section") = true
      · rw [if_pos ha1] at h; exact absurd h (by simp)
      · rw [if_neg ha1] at h
        by_cases hb1 : (b == "script_layers_section") = true
        · rw [if_pos hb1] at h; exact absurd h (by simp)
        · rw [if_neg hb1] at h
          by_cases ha2 : (a == "generated_script_objects_section") = true
          · rw [if_pos ha2] at h; exact absurd h (by simp)
          · rw [if_neg ha2] at h
            by_cases hb2 : (b == "generated_script_objects_section") = true
            · rw [if_pos hb2] at h; exact absurd h (by simp)
            · constructor
              · rw [Bool.or_eq_false_iff]
                exact ⟨by simpa using ha1, by simpa using ha2⟩
              · rw [Bool.or_eq_false_iff]
                exact ⟨by simpa using hb1, by simpa using hb2⟩

/-- The grouping-loop invariant for C6: emitted blocks are pure, the current
group is pure and consists of nonempty sections, and `previous_label` is the
label of the group's last section. -/
def encodeInv (acc : List CompressedBlock × List (String × List Nat) × String) : Prop :=
  (∀ b ∈ acc.1, pureBlock b)
    ∧ pureGroup acc.2.1
    ∧ (∀ s ∈ acc.2.1, s.2 ≠ [])
    ∧ (∀ s, acc.2.1.getLast? = some s → s.1 = acc.2.2)

theorem encode_step_inv (compress : List Nat → List Nat)
    (acc : List CompressedBlock × List (String × List Nat) × String)
    (ls : String × List Nat) (hinv : encodeInv acc) (hne : ls.2 ≠ []) :
    encodeInv (encode_step compress acc ls) := by
  obtain ⟨hblocks, hgroup, hsecs, hlast⟩ := hinv
  unfold encode_step
  by_cases hs : start_new_group ((acc.2.1.map (fun s => s.2.length)).sum) ls.2.length
      acc.2.2 ls.1 = true
  · rw [if_pos hs]
    refine ⟨?_, pureGroup_singleton ls, ?_, ?_⟩
    · intro b hb
      rcases List.mem_append.mp hb with h1 | h2
      · exact hblocks b h1
      · rw [List.mem_singleton.mp h2]
        unfold add_group
        by_cases hc : (compress (mergedAndPadded acc.2.1)).length
            + (32 - (compress (mergedAndPadded acc.2.1)).length % 32) % 32
            < (acc.2.1.map (fun s => s.2.length)).sum
        · rw [if_pos hc]; exact hgroup
        · rw [if_neg hc]; exact hgroup
    · intro s hsmem
      rw [List.mem_singleton.mp hsmem]
      exact hne
    · intro s hsl
      simp only [List.getLast?_singleton, Option.some.injEq] at hsl
      rw [← hsl]
  · rw [if_neg hs]
    simp only [Bool.not_eq_true] at hs
    rcases start_new_group_false _ _ _ _ hs with hzero | ⟨hprev, hcur⟩
    · -- the group has zero total size; with all sections nonempty it is empty
      have hempty : acc.2.1 = [] := by
        match hg : acc.2.1 with
        | [] => rfl
        | t :: rest =>
          exfalso
          rw [hg] at hzero hsecs
          simp only [List.map_cons, List.sum_cons] at hzero
          have ht : t.2 ≠ [] := hsecs t (by simp)
          have : t.2.length = 0 := by omega
          exact ht (List.eq_nil_of_length_eq_zero this)
      rw [hempty]
      refine ⟨hblocks, ?_, ?_, ?_⟩
      · simpa using pureGroup_singleton ls
      · intro s hsmem
        simp only [List.nil_append, List.mem_singleton] at hsmem
        rw [hsmem]; exact hne
      · intro s hsl
        simp only [List.nil_append, List.getLast?_singleton, Option.some.injEq] at hsl
        rw [← hsl]
    · -- neither the previous nor the current label is a script label
      refine ⟨hblocks, ?_, ?_, ?_⟩
      · refine Or.inr ?_
        intro s hsmem
        rcases List.mem_append.mp hsmem with h1 | h2
        · rcases hgroup with ⟨t, hg, hscript⟩ | hnone
          · exfalso
            rw [hg] at hlast
            have hteq : t.1 = acc.2.2 := hlast t (by simp)
            rw [hteq, hprev] at hscript
            exact absurd hscript (by simp)
          · exact hnone s h1
        · rw [List.mem_singleton.mp h2]
          exact hcur
      · intro s hsmem
        rcases List.mem_append.mp hsmem with h1 | h2
        · exact hsecs s h1
        · rw [List.mem_singleton.mp h2]; exact hne
      · intro s hsl
        rw [List.getLast?_append] at hsl
        have hsl2 : some ls = some s := hsl
        rw [← Option.some.inj hsl2]

theorem encode_fold_inv (compress : List Nat → List Nat) :
    ∀ (labeled : List (String × List Nat))
      (acc : List CompressedBlock × List (String × List Nat) × String),
      (∀ ls ∈ labeled, ls.2 ≠ []) → encodeInv acc →
      encodeInv (labeled.foldl (encode_step compress) acc) := by
  intro labeled
  induction labeled with
  | nil => intro acc _ hinv; exact hinv
  | cons ls rest ih =>
    intro acc hne hinv
    rw [List.foldl_cons]
    exact ih (encode_step compress acc ls)
      (fun x hx => hne x (by simp [hx]))
      (encode_step_inv compress acc ls hinv (hne ls (by simp)))

theorem encode_blocks_pure (compress : List Nat → List Nat)
    (data_sections : List (List Nat)) (category_starts : List (String × Option Nat))
    (hne : ∀ s ∈ data_sections, s ≠ []) :
    ∀ b ∈ encode_compressed_blocks compress data_sections category_starts, pureBlock b := by
  intro b hb
  unfold encode_compressed_blocks at hb
  dsimp only at hb
  have hlabne : ∀ ls ∈ (data_sections.enum.map
      (fun p => (cat_label_for (sortByStart (category_starts.filterMap
        (fun p => p.2.map (fun s => (p.1, s))))) p.1, p.2))), ls.2 ≠ [] := by
    intro ls hls
    obtain ⟨p, hp, hpe⟩ := List.mem_map.mp hls
    have hmem : p.2 ∈ data_sections := List.snd_mem_of_mem_enum hp
    rw [← hpe]
    exact hne p.2 hmem
  have hinv := encode_fold_inv compress _ ([], [], "") hlabne
    ⟨by intro b2 hb2; simp at hb2, Or.inr (by intro s hs; simp at hs),
     by intro s hs; simp at hs, by intro s hs; simp at hs⟩
  rcases List.mem_append.mp hb with h1 | h2
  · exact hinv.1 b h1
  · rw [List.mem_singleton.mp h2]
    unfold pureBlock
    unfold add_group
    by_cases hc : (compress (mergedAndPadded
        ((data_sections.enum.map (fun p => (cat_label_for (sortByStart
          (category_starts.filterMap (fun p => p.2.map (fun s => (p.1, s))))) p.1, p.2))).foldl
          (encode_step compress) ([], [], "")).2.1)).length
        + (32 - (compress (mergedAndPadded
        ((data_sections.enum.map (fun p => (cat_label_for (sortByStart
          (category_starts.filterMap (fun p => p.2.map (fun s => (p.1, s))))) p.1, p.2))).foldl
          (encode_step compress) ([], [], "")).2.1)).length % 32) % 32
        < ((((data_sections.enum.map (fun p => (cat_label_for (sortByStart
          (category_starts.filterMap (fun p => p.2.map (fun s => (p.1, s))))) p.1, p.2))).foldl
          (encode_step compress) ([], [], "")).2.1).map (fun s => s.2.length)).sum
    · rw [if_pos hc]
      exact hinv.2.1
    · rw [if_neg hc]
      exact hinv.2.1

/-- One step of `_build`'s category loop: record the offset of a present
category (`mrea_header[category] = len(data_sections)`) and append its
sections, or record `None`. -/
def build_category_step (raw_sections : List (String × List (List Nat)))
    (acc : List (Option Nat) × List (List Nat)) (category : String) :
    List (Option Nat) × List (List Nat) :=
  match dlookup raw_sections category with
  | some vals => (acc.1 ++ [some acc.2.length], acc.2 ++ vals)
  | none => (acc.1 ++ [none], acc.2)

/-- The category offsets and concatenated data sections `_build` computes,
iterating `_all_categories` in declared order. -/
def build_category_offsets (raw_sections : List (String × List (List Nat))) :
    List (Option Nat) × List (List Nat) :=
  all_categories.foldl (build_category_step raw_sections) ([], [])

theorem build_offsets_fold_sorted (raw_sections : List (String × List (List Nat))) :
    ∀ (cats : List String) (acc : List (Option Nat) × List (List Nat)),
      List.Sorted (· ≤ ·) (acc.1.filterMap id) →
      (∀ x ∈ acc.1.filterMap id, x ≤ acc.2.length) →
      List.Sorted (· ≤ ·)
          ((cats.foldl (build_category_step raw_sections) acc).1.filterMap id)
        ∧ (∀ x ∈ (cats.foldl (build_category_step raw_sections) acc).1.filterMap id,
            x ≤ (cats.foldl (build_category_step raw_sections) acc).2.length) := by
  intro cats
  induction cats with
  | nil => intro acc hsorted hbound; exact ⟨hsorted, hbound⟩
  | cons c rest ih =>
    intro acc hsorted hbound
    rw [List.foldl_cons]
    refine ih (build_category_step raw_sections acc c) ?_ ?_
    · unfold build_category_step
      match dlookup raw_sections c with
      | some vals =>
        dsimp only
        rw [List.filterMap_append]
        simp only [List.filterMap, id]
        refine List.pairwise_append.mpr ⟨hsorted, List.pairwise_singleton _ _, ?_⟩
        intro x hx y hy
        rw [List.mem_singleton.mp hy]
        exact hbound x hx
      | none =>
        dsimp only
        rw [List.filterMap_append]
        simp [hsorted]
    · unfold build_category_step
      match dlookup raw_sections c with
      | some vals =>
        dsimp only
        intro x hx
        rw [List.filterMap_append] at hx
        rcases List.mem_append.mp hx with h1 | h2
        · rw [List.length_append]
          exact Nat.le_trans (hbound x h1) (Nat.le_add_right _ _)
        · have hxe : x = acc.2.length := by
            simp only [List.filterMap, id] at h2
            exact List.mem_singleton.mp h2
          rw [hxe, List.length_append]
          exact Nat.le_add_right _ _
      | none =>
        dsimp only
        intro x hx
        rw [List.filterMap_append] at hx
        rcases List.mem_append.mp hx with h1 | h2
        · exact hbound x h1
        · simp at h2

/-- C6 counterexample: with a zero-length leading section, the boundary rule
(which tests the byte size of the current group, not its section count)
fails to open a new block for the following `script_layers` section: the
single emitted block mixes a `geometry_section` section with a
`script_layers_section` section. -/
theorem C6_counterexample :
    ((encode_compressed_blocks (fun x => x) [[], List.replicate 32 0]
        [("geometry_section", some 0), ("script_layers_section", some 1)]).map
      (fun b => b.sections.map (fun s => s.1)))
      = [["geometry_section", "script_layers_section"]]
      ∧ is_script_label "script_layers_section" = true
      ∧ is_script_label "geometry_section" = false :=
  ⟨rfl, rfl, rfl⟩

/-- C6 (amended): the section-group offsets `_build` writes into the new
header are monotone non-decreasing in declared category order, and — for
builds in which every data section is nonempty — every emitted compressed
block is either a single `script_layers`/`generated_script_objects` section
or contains no such section, so no block mixes the three classes.
(Zero-length sections can defeat the boundary rule, as the counterexample
shows, because `_start_new_group` tests the group's byte size.) -/
theorem C6_amended_offsets_monotone_and_script_isolation :
    (∀ raw_sections : List (String × List (List Nat)),
        List.Sorted (· ≤ ·) ((build_category_offsets raw_sections).1.filterMap id))
      ∧ (∀ (compress : List Nat → List Nat) (data_sections : List (List Nat))
            (category_starts : List (String × Option Nat)),
          (∀ s ∈ data_sections, s ≠ []) →
          ∀ b ∈ encode_compressed_blocks compress data_sections category_starts,
            pureBlock b) := by
  constructor
  · intro raw_sections
    exact (build_offsets_fold_sorted raw_sections all_categories ([], [])
      (by simp) (by simp)).1
  · intro compress data_sections category_starts hne b hb
    exact encode_blocks_pure compress data_sections category_starts hne b hb

/-- Witness for `C6_amended_offsets_monotone_and_script_isolation` at
concrete inputs. -/
theorem C6_amended_offsets_monotone_and_script_isolation_witness :
    List.Sorted (· ≤ ·)
        ((build_category_offsets [("geometry_section", [[0]])]).1.filterMap id)
      ∧ pureBlock (add_group (fun x => x) [("geometry_section", [0])]) :=
  ⟨C6_amended_offsets_monotone_and_script_isolation.1 [("geometry_section", [[0]])],
   C6_amended_offsets_monotone_and_script_isolation.2 (fun x => x) [[0]]
     [("geometry_section", some 0)] (by decide)
     (add_group (fun x => x) [("geometry_section", [0])]) (by decide)⟩

/-! ## MAPW codec (`formats/mapw.py`)

`MAPW = Struct(magic=Const(0xDEADF00D), version=Const(1),
area_map=PrefixedArray(Int32ub, AssetIdCorrect))`; `AssetIdCorrect` is a
32-bit big-endian id for the 32-bit games and 64-bit otherwise. -/

/-- Byte width of `AssetIdCorrect` for a game. -/
def assetIdSize (g : Game) : Nat := if g.uses_asset_id_32 then 4 else 8

/-- Read `n` consecutive `k`-byte big-endian integers. -/
def readArray (k : Nat) : Nat → List Nat → Option (List Nat × List Nat)
  | 0, bs => some ([], bs)
  | n + 1, bs =>
    match readBE k bs with
    | none => none
    | some (v, r) =>
      match readArray k n r with
      | none => none
      | some (vs, r2) => some (v :: vs, r2)

/-- Write a list of `k`-byte big-endian integers. -/
def writeArray (k : Nat) (vs : List Nat) : List Nat :=
  (vs.map (writeBE k)).flatten

/-- Parse a MAPW body: check both constants, read the count-prefixed id
array, return the ids and the unconsumed rest (construct's `parse` ignores
trailing bytes). -/
def parseMAPW (g : Game) (bs : List Nat) : Option (List Nat × List Nat) :=
  match readBE 4 bs with
  | none => none
  | some (magic, r1) =>
    if magic ≠ 0xDEADF00D then none
    else
      match readBE 4 r1 with
      | none => none
      | some (version, r2) =>
        if version ≠ 1 then none
        else
          match readBE 4 r2 with
          | none => none
          | some (count, r3) => readArray (assetIdSize g) count r3

/-- Build a MAPW body; fails (as construct's `build` raises) when a value
does not fit its field. -/
def buildMAPW (g : Game) (ids : List Nat) : Option (List Nat) :=
  if ids.length < 2 ^ 32 ∧ ∀ i ∈ ids, i < 256 ^ assetIdSize g then
    some (writeBE 4 0xDEADF00D ++ writeBE 4 1 ++ writeBE 4 ids.length
      ++ writeArray (assetIdSize g) ids)
  else none

theorem readArray_writeArray (k : Nat) (ids : List Nat) (r : List Nat)
    (hlt : ∀ i ∈ ids, i < 256 ^ k) :
    readArray k ids.length (writeArray k ids ++ r) = some (ids, r) := by
  induction ids with
  | nil => simp [readArray, writeArray]
  | cons i rest ih =>
    have hwf : writeArray k (i :: rest) ++ r = writeBE k i ++ (writeArray k rest ++ r) := by
      simp [writeArray, List.flatten]
    rw [List.length_cons, hwf]
    simp only [readArray, readBE_writeBE, Nat.mod_eq_of_lt (hlt i (by simp))]
    rw [ih (fun x hx => hlt x (by simp [hx]))]

theorem readArray_bytes_lt (k : Nat) :
    ∀ (n : Nat) (bs : List Nat) (vs : List Nat) (r : List Nat),
      (∀ b ∈ bs, b < 256) → readArray k n bs = some (vs, r) →
      (∀ v ∈ vs, v < 256 ^ k) ∧ (∀ b ∈ r, b < 256) ∧ writeArray k vs ++ r = bs
        ∧ vs.length = n := by
  intro n
  induction n with
  | zero =>
    intro bs vs r hb h
    simp only [readArray, Option.some.injEq, Prod.mk.injEq] at h
    refine ⟨?_, ?_, ?_, ?_⟩
    · intro v hv; rw [← h.1] at hv; simp at hv
    · intro b hbr; rw [← h.2] at hbr; exact hb b hbr
    · rw [← h.1, ← h.2]; simp [writeArray]
    · rw [← h.1]; rfl
  | succ n ih =>
    intro bs vs r hb h
    simp only [readArray] at h
    match hr : readBE k bs with
    | none => rw [hr] at h; exact absurd h (by simp)
    | some (v, r1) =>
      rw [hr] at h
      dsimp only at h
      match hra : readArray k n r1 with
      | none => rw [hra] at h; exact absurd h (by simp)
      | some (vs2, r2) =>
        rw [hra] at h
        simp only [Option.some.injEq, Prod.mk.injEq] at h
        have hw := writeBE_readBE k bs v r1 hb hr
        have hr1b : ∀ b ∈ r1, b < 256 := by
          intro b hmem
          exact hb b (by rw [← hw]; exact List.mem_append_right _ hmem)
        obtain ⟨hvs, hrb, hwa, hlen⟩ := ih r1 vs2 r2 hr1b hra
        have hvlt : v < 256 ^ k := readBE_lt k bs v r1 hb hr
        refine ⟨?_, ?_, ?_, ?_⟩
        · intro x hx
          rw [← h.1] at hx
          rcases List.mem_cons.mp hx with h1 | h2
          · rw [h1]; exact hvlt
          · exact hvs x h2
        · intro b hbr; rw [← h.2] at hbr; exact hrb b hbr
        · rw [← h.1, ← h.2]
          have : writeArray k (v :: vs2) = writeBE k v ++ writeArray k vs2 := by
            simp [writeArray, List.flatten]
          rw [this, List.append_assoc, hwa, hw]
        · rw [← h.1]
          simp [hlen]

theorem parseMAPW_buildMAPW (g : Game) (ids : List Nat) (out : List Nat)
    (h : buildMAPW g ids = some out) : parseMAPW g out = some (ids, []) := by
  unfold buildMAPW at h
  by_cases hc : ids.length < 2 ^ 32 ∧ ∀ i ∈ ids, i < 256 ^ assetIdSize g
  · rw [if_pos hc] at h
    have hout := Option.some.inj h
    rw [← hout]
    unfold parseMAPW
    rw [List.append_assoc, List.append_assoc, readBE_writeBE]
    dsimp only
    rw [Nat.mod_eq_of_lt (show (0xDEADF00D : Nat) < 256 ^ 4 by norm_num)]
    rw [if_neg (show ¬((0xDEADF00D : Nat) ≠ 0xDEADF00D) by simp)]
    rw [readBE_writeBE]
    dsimp only
    rw [Nat.mod_eq_of_lt (show (1 : Nat) < 256 ^ 4 by norm_num)]
    rw [if_neg (show ¬((1 : Nat) ≠ 1) by simp)]
    rw [readBE_writeBE]
    dsimp only
    have hlen : ids.length < 256 ^ 4 := by
      have h32 : (2 : Nat) ^ 32 = 256 ^ 4 := by norm_num
      rw [← h32]
      exact hc.1
    rw [Nat.mod_eq_of_lt hlen]
    have hra := readArray_writeArray (assetIdSize g) ids [] hc.2
    rw [List.append_nil] at hra
    exact hra
  · rw [if_neg hc] at h
    exact absurd h (by simp)

theorem buildMAPW_parseMAPW (g : Game) (bs : List Nat) (ids : List Nat)
    (hb : ∀ b ∈ bs, b < 256) (h : parseMAPW g bs = some (ids, [])) :
    buildMAPW g ids = some bs := by
  unfold parseMAPW at h
  match h1 : readBE 4 bs with
  | none => rw [h1] at h; exact absurd h (by simp)
  | some (magic, r1) =>
    rw [h1] at h
    dsimp only at h
    by_cases hm : magic ≠ 0xDEADF00D
    · rw [if_pos hm] at h; exact absurd h (by simp)
    · rw [if_neg hm] at h
      push_neg at hm
      have hr1b : ∀ b ∈ r1, b < 256 := by
        intro b hmem
        have hw := writeBE_readBE 4 bs magic r1 hb h1
        exact hb b (by rw [← hw]; exact List.mem_append_right _ hmem)
      match h2 : readBE 4 r1 with
      | none => rw [h2] at h; exact absurd h (by simp)
      | some (version, r2) =>
        rw [h2] at h
        dsimp only at h
        by_cases hv : version ≠ 1
        · rw [if_pos hv] at h; exact absurd h (by simp)
        · rw [if_neg hv] at h
          push_neg at hv
          have hr2b : ∀ b ∈ r2, b < 256 := by
            intro b hmem
            have hw := writeBE_readBE 4 r1 version r2 hr1b h2
            exact hr1b b (by rw [← hw]; exact List.mem_append_right _ hmem)
          match h3 : readBE 4 r2 with
          | none => rw [h3] at h; exact absurd h (by simp)
          | some (count, r3) =>
            rw [h3] at h
            dsimp only at h
            have hr3b : ∀ b ∈ r3, b < 256 := by
              intro b hmem
              have hw := writeBE_readBE 4 r2 count r3 hr2b h3
              exact hr2b b (by rw [← hw]; exact List.mem_append_right _ hmem)
            obtain ⟨hvs, _, hwa, hlen⟩ :=
              readArray_bytes_lt (assetIdSize g) count r3 ids [] hr3b h
            have hcount : count < 2 ^ 32 := by
              have := readBE_lt 4 r2 count r3 hr2b h3
              norm_num at this ⊢
              exact this
            unfold buildMAPW
            rw [if_pos ⟨by rw [hlen]; exact hcount, hvs⟩]
            rw [hlen]
            have hw1 := writeBE_readBE 4 bs magic r1 hb h1
            have hw2 := writeBE_readBE 4 r1 version r2 hr1b h2
            have hw3 := writeBE_readBE 4 r2 count r3 hr2b h3
            rw [List.append_nil] at hwa
            rw [hm] at hw1
            rw [hv] at hw2
            rw [← hw1, ← hw2, ← hw3, hwa]
            simp [List.append_assoc]

/-! ## MREA codec (`formats/mrea.py`, `MREAConstruct._parse` / `_build`)

The area transform (`Transform4f`, 12 big-endian floats) is carried as its
raw 48 bytes; float re-encoding is bit-exact in construct, so this loses
nothing for round-trip statements.  The LZO block codec
(`compression.py`) and the padding helpers (`construct_extensions/...`,
`data_section.py`) are outside the provided core: compression enters as the
`compress`/`decompress` parameters, `PrefixedWithPaddingBefore` writes the
alignment padding before the compressed bytes, and `DataSection` emits the
raw run padded to 32 bytes — both as §4.D/§6 of the spec describe. -/

/-- The values of the `MREAVersion` enum. -/
def mreaVersions : List Nat := [0xC, 0xF, 0x15, 0x19, 0x1D, 0x1E, 0x20]

/-- The parsed `MREAHeader` struct; fields that are version-conditional in
the source (`WithVersion`/`BeforeVersion`) are `Option`s. -/
structure MreaHeader where
  version : Nat
  area_transform : List Nat
  world_model_count : Nat
  script_layer_count : Option Nat
  data_section_count : Nat
  geometry_section : Nat
  script_layers_section : Nat
  generated_script_objects_section : Option Nat
  collision_section : Nat
  unknown_section_1 : Nat
  lights_section : Nat
  visibility_tree_section : Nat
  path_section : Nat
  area_octree_section : Option Nat
  unknown_section_2 : Option Nat
  portal_area_section : Option Nat
  static_geometry_map_section : Option Nat
  compressed_block_count : Option Nat
deriving DecidableEq, Repr

/-- Take exactly `k` bytes from the stream. -/
def takeBytes (k : Nat) (bs : List Nat) : Option (List Nat × List Nat) :=
  if k ≤ bs.length then some (bs.take k, bs.drop k) else none

/-- Read one version-conditional `Int32ub` field
(`WithVersion`/`BeforeVersion`). -/
def readIf (c : Bool) (bs : List Nat) : Option (Option Nat × List Nat) :=
  if c then
    match readBE 4 bs with
    | none => none
    | some (v, r) => some (some v, r)
  else some (none, bs)

/-- Bytes consumed by the header fields for a version; `Aligned(32, ...)`
pads the header to the next 32-byte boundary from this count (the twelve
always-present fields occupy 92 bytes; six more words appear from Echoes
on, and the octree word before the Echoes demo). -/
def mreaHeaderConsumed (version : Nat) : Nat :=
  92 + (if 0x19 ≤ version then 24 else 0) + (if version < 0x15 then 4 else 0)

/-- Parse `MREAHeader` (an `Aligned(32, Struct(...))`): magic and version
checks, the fixed fields, the version-conditional fields, then the
alignment padding. -/
def parseMreaHeader (bs : List Nat) : Option (MreaHeader × List Nat) :=
  match readBE 4 bs with
  | none => none
  | some (magic, r0) =>
    if magic ≠ 0xDEADBEEF then none else
    match readBE 4 r0 with
    | none => none
    | some (version, r1) =>
      if version ∉ mreaVersions then none else
      match takeBytes 48 r1 with
      | none => none
      | some (area_transform, r2) =>
        match readBE 4 r2 with
        | none => none
        | some (world_model_count, r3) =>
          match readIf (decide (0x19 ≤ version)) r3 with
          | none => none
          | some (script_layer_count, r4) =>
            match readBE 4 r4 with
            | none => none
            | some (data_section_count, r5) =>
              match readBE 4 r5 with
              | none => none
              | some (geometry_section, r6) =>
                match readBE 4 r6 with
                | none => none
                | some (script_layers_section, r7) =>
                  match readIf (decide (0x19 ≤ version)) r7 with
                  | none => none
                  | some (generated_script_objects_section, r8) =>
                    match readBE 4 r8 with
                    | none => none
                    | some (collision_section, r9) =>
                      match readBE 4 r9 with
                      | none => none
                      | some (unknown_section_1, r10) =>
                        match readBE 4 r10 with
                        | none => none
                        | some (lights_section, r11) =>
                          match readBE 4 r11 with
                          | none => none
                          | some (visibility_tree_section, r12) =>
                            match readBE 4 r12 with
                            | none => none
                            | some (path_section, r13) =>
                              match readIf (decide (version < 0x15)) r13 with
                              | none => none
                              | some (area_octree_section, r14) =>
                                match readIf (decide (0x19 ≤ version)) r14 with
                                | none => none
                                | some (unknown_section_2, r15) =>
                                  match readIf (decide (0x19 ≤ version)) r15 with
                                  | none => none
                                  | some (portal_area_section, r16) =>
                                    match readIf (decide (0x19 ≤ version)) r16 with
                                    | none => none
                                    | some (static_geometry_map_section, r17) =>
                                      match readIf (decide (0x19 ≤ version)) r17 with
                                      | none => none
                                      | some (compressed_block_count, r18) =>
                                        match takeBytes
                                            ((32 - mreaHeaderConsumed version % 32) % 32)
                                            r18 with
                                        | none => none
                                        | some (_, r19) =>
                                          some (⟨version, area_transform,
                                            world_model_count, script_layer_count,
                                            data_section_count, geometry_section,
                                            script_layers_section,
                                            generated_script_objects_section,
                                            collision_section, unknown_section_1,
                                            lights_section, visibility_tree_section,
                                            path_section, area_octree_section,
                                            unknown_section_2, portal_area_section,
                                            static_geometry_map_section,
                                            compressed_block_count⟩, r19)

/-- A mandatory `Int32ub` value fits its field. -/
def fits32 (n : Nat) : Prop := n < 2 ^ 32

/-- A version-conditional field can be built: when the condition is on, the
value must be present and fit (construct raises on building `None` or an
oversized int); when off, the subconstruct is skipped entirely. -/
def optFieldOk (c : Bool) (v : Option Nat) : Prop :=
  c = true → ∃ n, v = some n ∧ n < 2 ^ 32

instance (n : Nat) : Decidable (fits32 n) := by unfold fits32; infer_instance

instance (c : Bool) (v : Option Nat) : Decidable (optFieldOk c v) := by
  unfold optFieldOk
  cases v with
  | none =>
    cases c with
    | false => exact .isTrue (by intro h; exact absurd h (by simp))
    | true => exact .isFalse (by intro h; obtain ⟨n, hn, _⟩ := h rfl; exact absurd hn (by simp))
  | some n =>
    cases c with
    | false => exact .isTrue (by intro h; exact absurd h (by simp))
    | true =>
      by_cases hlt : n < 2 ^ 32
      · exact .isTrue (by intro _; exact ⟨n, rfl, hlt⟩)
      · exact .isFalse (by
          intro h
          obtain ⟨m, hm, hmlt⟩ := h rfl
          rw [Option.some.inj hm] at hlt
          exact hlt hmlt)

/-- Emit one version-conditional field. -/
def writeOpt (c : Bool) (v : Option Nat) : List Nat :=
  if c then writeBE 4 (v.getD 0) else []

/-- All the per-field conditions `MREAHeader.build` needs (construct raises
at the first offending field; the model aggregates them into one check). -/
def mreaHeaderBuildOk (h : MreaHeader) : Prop :=
  h.version ∈ mreaVersions ∧ h.area_transform.length = 48
    ∧ fits32 h.world_model_count ∧ fits32 h.data_section_count
    ∧ fits32 h.geometry_section ∧ fits32 h.script_layers_section
    ∧ fits32 h.collision_section ∧ fits32 h.unknown_section_1
    ∧ fits32 h.lights_section ∧ fits32 h.visibility_tree_section
    ∧ fits32 h.path_section
    ∧ optFieldOk (decide (0x19 ≤ h.version)) h.script_layer_count
    ∧ optFieldOk (decide (0x19 ≤ h.version)) h.generated_script_objects_section
    ∧ optFieldOk (decide (h.version < 0x15)) h.area_octree_section
    ∧ optFieldOk (decide (0x19 ≤ h.version)) h.unknown_section_2
    ∧ optFieldOk (decide (0x19 ≤ h.version)) h.portal_area_section
    ∧ optFieldOk (decide (0x19 ≤ h.version)) h.static_geometry_map_section
    ∧ optFieldOk (decide (0x19 ≤ h.version)) h.compressed_block_count

instance (h : MreaHeader) : Decidable (mreaHeaderBuildOk h) := by
  unfold mreaHeaderBuildOk; infer_instance

/-- Build `MREAHeader`: the fields in struct order, zero-padded to the
32-byte boundary. -/
def buildMreaHeader (h : MreaHeader) : Except String (List Nat) :=
  if mreaHeaderBuildOk h then
    .ok (writeBE 4 0xDEADBEEF ++ (writeBE 4 h.version ++ (h.area_transform
      ++ (writeBE 4 h.world_model_count
      ++ (writeOpt (decide (0x19 ≤ h.version)) h.script_layer_count
      ++ (writeBE 4 h.data_section_count ++ (writeBE 4 h.geometry_section
      ++ (writeBE 4 h.script_layers_section
      ++ (writeOpt (decide (0x19 ≤ h.version)) h.generated_script_objects_section
      ++ (writeBE 4 h.collision_section ++ (writeBE 4 h.unknown_section_1
      ++ (writeBE 4 h.lights_section ++ (writeBE 4 h.visibility_tree_section
      ++ (writeBE 4 h.path_section
      ++ (writeOpt (decide (h.version < 0x15)) h.area_octree_section
      ++ (writeOpt (decide (0x19 ≤ h.version)) h.unknown_section_2
      ++ (writeOpt (decide (0x19 ≤ h.version)) h.portal_area_section
      ++ (writeOpt (decide (0x19 ≤ h.version)) h.static_geometry_map_section
      ++ (writeOpt (decide (0x19 ≤ h.version)) h.compressed_block_count
      ++ List.replicate ((32 - mreaHeaderConsumed h.version % 32) % 32) 0)))))))))))))))))))
  else .error "cannot build MREA header"

theorem takeBytes_append_exact (k : Nat) (xs rest : List Nat) (hx : xs.length = k) :
    takeBytes k (xs ++ rest) = some (xs, rest) := by
  unfold takeBytes
  rw [if_pos (by rw [List.length_append]; omega)]
  rw [← hx, List.take_left, List.drop_left]

theorem fits32_lt (n : Nat) (h : fits32 n) : n < 256 ^ 4 := by
  unfold fits32 at h
  norm_num at h ⊢
  omega

theorem mreaVersions_lt : ∀ v ∈ mreaVersions, v < 256 ^ 4 := by decide

theorem readIf_true_write (n : Nat) (tail : List Nat) (hn : n < 256 ^ 4) :
    readIf true (writeBE 4 n ++ tail) = some (some n, tail) := by
  unfold readIf
  rw [if_pos rfl, readBE_writeBE, Nat.mod_eq_of_lt hn]

theorem readIf_false (bs : List Nat) : readIf false bs = some (none, bs) := rfl

theorem writeOpt_true_some (n : Nat) : writeOpt true (some n) = writeBE 4 n := rfl

theorem writeOpt_false (v : Option Nat) : writeOpt false v = [] := rfl

theorem parse_build_mreaHeader (h : MreaHeader) (out rest : List Nat)
    (h19 : 0x19 ≤ h.version) (hoct : h.area_octree_section = none)
    (hbuild : buildMreaHeader h = .ok out) :
    parseMreaHeader (out ++ rest) = some (h, rest) := by
  unfold buildMreaHeader at hbuild
  by_cases hok : mreaHeaderBuildOk h
  case neg => rw [if_neg hok] at hbuild; exact absurd hbuild (by simp)
  rw [if_pos hok] at hbuild
  obtain ⟨hmem, htr, hwmc, hdsc, hgeo, hscly, hcol, hunk1, hlig, hvis, hpath,
    hslc, hgen, hoctok, hu2, hport, hstat, hcbc⟩ := hok
  have hd19 : decide (0x19 ≤ h.version) = true := decide_eq_true h19
  have hd15 : decide (h.version < 0x15) = false := by
    rw [decide_eq_false]
    omega
  obtain ⟨slc, hslcv, hslclt⟩ := hslc hd19
  obtain ⟨gen, hgenv, hgenlt⟩ := hgen hd19
  obtain ⟨u2, hu2v, hu2lt⟩ := hu2 hd19
  obtain ⟨port, hportv, hportlt⟩ := hport hd19
  obtain ⟨stat, hstatv, hstatlt⟩ := hstat hd19
  obtain ⟨cbc, hcbcv, hcbclt⟩ := hcbc hd19
  have hout := Except.ok.inj hbuild
  rw [← hout]
  rw [hd19, hd15, hslcv, hgenv, hoct, hu2v, hportv, hstatv, hcbcv,
    writeOpt_true_some, writeOpt_true_some, writeOpt_true_some, writeOpt_true_some,
    writeOpt_true_some, writeOpt_true_some, writeOpt_false]
  unfold parseMreaHeader
  simp only [List.append_assoc, List.nil_append]
  rw [readBE_writeBE]
  dsimp only
  rw [Nat.mod_eq_of_lt (show (0xDEADBEEF : Nat) < 256 ^ 4 by norm_num)]
  rw [if_neg (show ¬((0xDEADBEEF : Nat) ≠ 0xDEADBEEF) by simp)]
  rw [readBE_writeBE]
  dsimp only
  rw [Nat.mod_eq_of_lt (mreaVersions_lt h.version hmem)]
  rw [if_neg (not_not.mpr hmem)]
  rw [takeBytes_append_exact 48 h.area_transform _ htr]
  dsimp only
  rw [readBE_writeBE]
  dsimp only
  rw [Nat.mod_eq_of_lt (fits32_lt _ hwmc)]
  rw [hd19, readIf_true_write slc _ (fits32_lt _ (by exact hslclt))]
  dsimp only
  rw [readBE_writeBE]
  dsimp only
  rw [Nat.mod_eq_of_lt (fits32_lt _ hdsc)]
  rw [readBE_writeBE]
  dsimp only
  rw [Nat.mod_eq_of_lt (fits32_lt _ hgeo)]
  rw [readBE_writeBE]
  dsimp only
  rw [Nat.mod_eq_of_lt (fits32_lt _ hscly)]
  rw [readIf_true_write gen _ (fits32_lt _ (by exact hgenlt))]
  dsimp only
  rw [readBE_writeBE]
  dsimp only
  rw [Nat.mod_eq_of_lt (fits32_lt _ hcol)]
  rw [readBE_writeBE]
  dsimp only
  rw [Nat.mod_eq_of_lt (fits32_lt _ hunk1)]
  rw [readBE_writeBE]
  dsimp only
  rw [Nat.mod_eq_of_lt (fits32_lt _ hlig)]
  rw [readBE_writeBE]
  dsimp only
  rw [Nat.mod_eq_of_lt (fits32_lt _ hvis)]
  rw [readBE_writeBE]
  dsimp only
  rw [Nat.mod_eq_of_lt (fits32_lt _ hpath)]
  rw [hd15, readIf_false]
  dsimp only
  rw [readIf_true_write u2 _ (fits32_lt _ (by exact hu2lt))]
  dsimp only
  rw [readIf_true_write port _ (fits32_lt _ (by exact hportlt))]
  dsimp only
  rw [readIf_true_write stat _ (fits32_lt _ (by exact hstatlt))]
  dsimp only
  rw [readIf_true_write cbc _ (fits32_lt _ (by exact hcbclt))]
  dsimp only
  rw [takeBytes_append_exact _ _ rest (by simp)]
  dsimp only
  rw [← hslcv, ← hgenv, ← hoct, ← hu2v, ← hportv, ← hstatv, ← hcbcv]

/-! ### Whole-file MREA parse and build

`MREAConstruct._parse` / `_build` (`mrea.py:207-427`).  LZO enters as the
abstract `compress : List Nat → List Nat` and
`decompress : Nat → List Nat → Option (List Nat)` parameters (expected
uncompressed size, then the compressed bytes). -/

/-- The parse result `Container(version=..., area_transform=...,
world_model_count=..., raw_sections=...)`; `sections` starts empty and is
not part of the codec state. -/
structure MreaParsed where
  version : Nat
  area_transform : List Nat
  world_model_count : Nat
  raw_sections : List (String × List (List Nat))
deriving DecidableEq, Repr

/-- `_get_compressed_block_size`: the stored byte length of one block. -/
def compressedBlockSize (h : CompressedBlockHeader) : Nat :=
  if h.compressed_size = 0 then h.uncompressed_size
  else h.compressed_size + (32 - h.compressed_size % 32) % 32

/-- Parse one `CompressedBlockHeader` (four `Int32ub`). -/
def parseBlockHeader (bs : List Nat) : Option (CompressedBlockHeader × List Nat) :=
  match readBE 4 bs with
  | none => none
  | some (buffer_size, r1) =>
    match readBE 4 r1 with
    | none => none
    | some (uncompressed_size, r2) =>
      match readBE 4 r2 with
      | none => none
      | some (compressed_size, r3) =>
        match readBE 4 r3 with
        | none => none
        | some (data_section_count, r4) =>
          some (⟨buffer_size, uncompressed_size, compressed_size, data_section_count⟩, r4)

/-- Read `Array(compressed_block_count, CompressedBlockHeader)`. -/
def readBlockHeaders : Nat → List Nat → Option (List CompressedBlockHeader × List Nat)
  | 0, bs => some ([], bs)
  | n + 1, bs =>
    match parseBlockHeader bs with
    | none => none
    | some (h, r) =>
      match readBlockHeaders n r with
      | none => none
      | some (hs, r2) => some (h :: hs, r2)

/-- Read the stored bytes of each block:
`Aligned(32, FixedSized(_get_compressed_block_size(header), GreedyBytes))`. -/
def readBlocksPayload : List CompressedBlockHeader → List Nat →
    Option (List (List Nat) × List Nat)
  | [], bs => some ([], bs)
  | h :: hs, bs =>
    match takeBytes (compressedBlockSize h) bs with
    | none => none
    | some (block, r1) =>
      match takeBytes ((32 - compressedBlockSize h % 32) % 32) r1 with
      | none => none
      | some (_, r2) =>
        match readBlocksPayload hs r2 with
        | none => none
        | some (blocks, r3) => some (block :: blocks, r3)

/-- `_get_compressed_block_subcon` applied to one stored block: an
uncompressed block is the raw bytes (`DataSection(GreedyBytes)`); a
compressed one skips the alignment padding written before the compressed
bytes (`PrefixedWithPaddingBefore`), takes them and LZO-decompresses to the
expected size. -/
def decodeBlock (decompress : Nat → List Nat → Option (List Nat))
    (h : CompressedBlockHeader) (block : List Nat) : Option (List Nat) :=
  if h.compressed_size = 0 then some block
  else decompress h.uncompressed_size
    ((block.drop ((32 - h.compressed_size % 32) % 32)).take h.compressed_size)

/-- Cut a decompressed block into data sections of the given sizes
(`decompressed_block[offset : offset + section_size]`). -/
def sliceSections : List Nat → List Nat → List (List Nat)
  | [], _ => []
  | s :: ss, d => d.take s :: sliceSections ss (d.drop s)

/-- Decompress every block and concatenate the recovered data sections,
consuming `data_section_count` sizes per block; fails if a block
decompresses to the wrong length (the explicit size check of
`_decode_compressed_blocks`) or the size array runs out (the
`data_section_sizes[...]` `IndexError`). -/
def decodeBlocks (decompress : Nat → List Nat → Option (List Nat)) :
    List CompressedBlockHeader → List (List Nat) → List Nat →
    Option (List (List Nat))
  | [], _, _ => some []
  | h :: hs, [], _ => none
  | h :: hs, block :: blocks, sizes =>
    match decodeBlock decompress h block with
    | none => none
    | some d =>
      if d.length = h.uncompressed_size then
        if h.data_section_count ≤ sizes.length then
          match decodeBlocks decompress hs blocks (sizes.drop h.data_section_count) with
          | none => none
          | some rest => some (sliceSections (sizes.take h.data_section_count) d ++ rest)
        else none
      else none

/-- Uncompressed (pre-Echoes) data sections:
`Array(count, Aligned(32, FixedSized(data_section_sizes[i], GreedyBytes)))`. -/
def readSections : List Nat → List Nat → Option (List (List Nat) × List Nat)
  | [], bs => some ([], bs)
  | s :: ss, bs =>
    match takeBytes s bs with
    | none => none
    | some (d, r1) =>
      match takeBytes ((32 - s % 32) % 32) r1 with
      | none => none
      | some (_, r2) =>
        match readSections ss r2 with
        | none => none
        | some (ds, r3) => some (d :: ds, r3)

/-- `mrea_header[label]` for one of the twelve category labels. -/
def headerCategoryValue (h : MreaHeader) (label : String) : Option Nat :=
  if label == "geometry_section" then some h.geometry_section
  else if label == "unknown_section_2" then h.unknown_section_2
  else if label == "script_layers_section" then some h.script_layers_section
  else if label == "generated_script_objects_section" then h.generated_script_objects_section
  else if label == "collision_section" then some h.collision_section
  else if label == "unknown_section_1" then some h.unknown_section_1
  else if label == "lights_section" then some h.lights_section
  else if label == "visibility_tree_section" then some h.visibility_tree_section
  else if label == "path_section" then some h.path_section
  else if label == "area_octree_section" then h.area_octree_section
  else if label == "portal_area_section" then h.portal_area_section
  else if label == "static_geometry_map_section" then h.static_geometry_map_section
  else none

/-- The `data_sections[start:end]` slices of `_parse`, walking the
start-sorted category list; the last category takes everything from its
start. -/
def spansOf : List (String × Nat) → List (List Nat) → List (String × List (List Nat))
  | [], _ => []
  | (l, s) :: rest, ds =>
    match rest with
    | [] => [(l, ds.drop s)]
    | (_, e) :: _ => (l, (ds.drop s).take (e - s)) :: spansOf rest ds

/-- Split the data sections into the named categories: keep the categories
whose header value is present, sort them (stably) by start offset, then
slice. -/
def splitIntoCategories (h : MreaHeader) (ds : List (List Nat)) :
    List (String × List (List Nat)) :=
  spansOf
    (sortByStart (all_categories.filterMap
      (fun l => (headerCategoryValue h l).map (fun v => (l, v)))))
    ds

/-- `MREAConstruct._parse`: header, aligned size array, then either the
compressed blocks (when `compressed_block_count` is present) or the plain
aligned sections, finally the category split.  Trailing bytes are ignored,
as construct's `parse` does. -/
def parseMREA (decompress : Nat → List Nat → Option (List Nat)) (bs : List Nat) :
    Option MreaParsed :=
  match parseMreaHeader bs with
  | none => none
  | some (hdr, r) =>
    match readArray 4 hdr.data_section_count r with
    | none => none
    | some (sizes, r2) =>
      match takeBytes ((32 - (4 * hdr.data_section_count) % 32) % 32) r2 with
      | none => none
      | some (_, r3) =>
        match hdr.compressed_block_count with
        | some cnt =>
          match readBlockHeaders cnt r3 with
          | none => none
          | some (bhs, r4) =>
            match takeBytes ((32 - (16 * cnt) % 32) % 32) r4 with
            | none => none
            | some (_, r5) =>
              match readBlocksPayload bhs r5 with
              | none => none
              | some (blocks, _) =>
                match decodeBlocks decompress bhs blocks sizes with
                | none => none
                | some data_sections =>
                  some ⟨hdr.version, hdr.area_transform, hdr.world_model_count,
                    splitIntoCategories hdr data_sections⟩
        | none =>
          match readSections sizes r3 with
          | none => none
          | some (data_sections, _) =>
            some ⟨hdr.version, hdr.area_transform, hdr.world_model_count,
              splitIntoCategories hdr data_sections⟩

/-- Serialize one `CompressedBlockHeader` (four `Int32ub`). -/
def writeBlockHeader (h : CompressedBlockHeader) : List Nat :=
  writeBE 4 h.buffer_size ++ writeBE 4 h.uncompressed_size
    ++ writeBE 4 h.compressed_size ++ writeBE 4 h.data_section_count

/-- The stored bytes of one block: a compressed block is written with its
alignment padding *before* the data (`PrefixedWithPaddingBefore`), an
uncompressed one with the padding after (`DataSection`). -/
def payloadOf (b : CompressedBlock) : List Nat :=
  if b.header.compressed_size ≠ 0 then
    List.replicate ((32 - b.header.compressed_size % 32) % 32) 0 ++ b.data
  else b.data ++ List.replicate ((32 - b.data.length % 32) % 32) 0

/-- The four fields of a block header fit `Int32ub`. -/
def blockHeaderFits (h : CompressedBlockHeader) : Bool :=
  decide (h.buffer_size < 2 ^ 32) && decide (h.uncompressed_size < 2 ^ 32)
    && decide (h.compressed_size < 2 ^ 32) && decide (h.data_section_count < 2 ^ 32)

/-- `MREAConstruct._build`: lay the categories out in declared order to get
the header offsets and the flat data-section list, refuse any version
before Echoes (`RuntimeError("Not implemented yet")`), compress the
sections into blocks, then serialize header, aligned size array, aligned
block headers and the block payloads.  Building `None` into a mandatory
`Int32ub` or an oversized value raises in construct, modelled as
errors. -/
def buildMREA (compress : List Nat → List Nat) (x : MreaParsed) :
    Except String (List Nat) :=
  let off := (build_category_offsets x.raw_sections).1
  let data_sections := (build_category_offsets x.raw_sections).2
  if 0x19 ≤ x.version then
    let blocks := encode_compressed_blocks compress data_sections
      (all_categories.zip off)
    match dlookup x.raw_sections "script_layers_section" with
    | none => .error "script_layers_section"
    | some scly_sections =>
      match off with
      | [some geo, o1, some scly, o3, some coll, some unk1, some ligh,
          some visi, some path, o9, o10, o11] =>
        match buildMreaHeader ⟨x.version, x.area_transform, x.world_model_count,
            some scly_sections.length, data_sections.length, geo, scly,
            o3, coll, unk1, ligh, visi, path, o9, o1, o10, o11,
            some blocks.length⟩ with
        | .error e => .error e
        | .ok hb =>
          if data_sections.all (fun s => decide (s.length < 2 ^ 32))
              && blocks.all (fun b => blockHeaderFits b.header) then
            .ok (hb
              ++ (writeArray 4 (data_sections.map List.length)
              ++ (List.replicate ((32 - (4 * data_sections.length) % 32) % 32) 0
              ++ ((blocks.map (fun b => writeBlockHeader b.header)).flatten
              ++ (List.replicate ((32 - (16 * blocks.length) % 32) % 32) 0
              ++ (blocks.map payloadOf).flatten)))))
          else .error "field does not fit"
      | _ => .error "cannot build None field"
  else .error "Not implemented yet"

/-- A minimal Metroid Prime 1 (version `0xF`) MREA: the 96-byte header
(no version-conditional fields except the pre-`EchoesDemo` octree word,
`data_section_count = 1`, every offset 0), the aligned size array `[32]`,
and one 32-byte uncompressed data section. -/
def c7Bytes : List Nat :=
  [0xDE, 0xAD, 0xBE, 0xEF, 0, 0, 0, 0xF] ++ List.replicate 48 0
    ++ ([0, 0, 0, 0] ++ ([0, 0, 0, 1] ++ (List.replicate 32 0
    ++ ([0, 0, 0, 0x20] ++ (List.replicate 28 0 ++ List.replicate 32 0)))))

/-- C7 counterexample: the MREA codec does not round-trip on every
well-formed accepted input.  `parseMREA` accepts this Prime 1 (version
`0xF`) file, but `_build` refuses every pre-Echoes version with
`RuntimeError("Not implemented yet")` (`mrea.py:400`), so
`build(parse(raw))` fails instead of reproducing the parse. -/
theorem C7_counterexample :
    (parseMREA (fun n l => if l.length = n then some l else none) c7Bytes).map
        (fun p => (p.version, buildMREA (fun l => l) p))
      = some (0xF, .error "Not implemented yet") := by
  set_option maxRecDepth 10000 in rfl

theorem pad32_of_aligned (b : List Nat) (h : b.length % 32 = 0) : pad32 b = b := by
  unfold pad32
  rw [show (32 - b.length % 32) % 32 = 0 by omega]
  simp

theorem mergedAndPadded_aligned (g : List (String × List Nat))
    (h : ∀ s ∈ g, s.2.length % 32 = 0) :
    mergedAndPadded g = (g.map (fun s => s.2)).flatten := by
  unfold mergedAndPadded
  congr 1
  apply List.map_congr_left
  intro s hs
  exact pad32_of_aligned s.2 (h s hs)

theorem sum_mod32 (l : List Nat) (h : ∀ x ∈ l, x % 32 = 0) : l.sum % 32 = 0 := by
  induction l with
  | nil => rfl
  | cons a rest ih =>
    rw [List.sum_cons]
    have ha := h a (by simp)
    have hr := ih (fun x hx => h x (by simp [hx]))
    omega

theorem sliceSections_flatten (vs : List (List Nat)) :
    sliceSections (vs.map List.length) vs.flatten = vs := by
  induction vs with
  | nil => rfl
  | cons v rest ih =>
    rw [List.map_cons, List.flatten_cons]
    unfold sliceSections
    rw [List.take_left v rest.flatten, List.drop_left, ih]

theorem insertAfterEq_ge (acc : List (String × Nat)) (x : String × Nat)
    (h : ∀ y ∈ acc, y.2 ≤ x.2) : insertAfterEq acc x = acc ++ [x] := by
  induction acc with
  | nil => rfl
  | cons y rest ih =>
    unfold insertAfterEq
    rw [if_pos (h y (by simp)), ih (fun z hz => h z (by simp [hz]))]
    rfl

theorem sortByStart_of_sorted (l : List (String × Nat))
    (hs : List.Pairwise (fun a b : String × Nat => a.2 ≤ b.2) l) :
    sortByStart l = l := by
  unfold sortByStart
  suffices hgen : ∀ (t acc : List (String × Nat)),
      List.Pairwise (fun a b : String × Nat => a.2 ≤ b.2) t →
      (∀ a ∈ acc, ∀ b ∈ t, a.2 ≤ b.2) →
      t.foldl insertAfterEq acc = acc ++ t by
    have := hgen l [] hs (by simp)
    simpa using this
  intro t
  induction t with
  | nil => intro acc _ _; simp
  | cons b rest ih =>
    intro acc hp hab
    rw [List.foldl_cons]
    rw [insertAfterEq_ge acc b (fun y hy => hab y hy b (by simp))]
    rw [ih (acc ++ [b]) (List.Pairwise.of_cons hp) ?_]
    · simp
    · intro a ha c hc
      rcases List.mem_append.mp ha with h1 | h2
      · exact hab a h1 c (by simp [hc])
      · rw [List.mem_singleton.mp h2]
        exact (List.pairwise_cons.mp hp).1 c hc

theorem encode_fold_groups (compress : List Nat → List Nat) :
    ∀ (labeled : List (String × List Nat))
      (acc : List CompressedBlock × List (String × List Nat) × String),
      ∃ gs : List (List (String × List Nat)),
        (labeled.foldl (encode_step compress) acc).1
            = acc.1 ++ gs.map (add_group compress)
          ∧ gs.flatten ++ (labeled.foldl (encode_step compress) acc).2.1
            = acc.2.1 ++ labeled := by
  intro labeled
  induction labeled with
  | nil => intro acc; exact ⟨[], by simp, by simp⟩
  | cons ls rest ih =>
    intro acc
    rw [List.foldl_cons]
    by_cases hs : start_new_group ((acc.2.1.map (fun s => s.2.length)).sum) ls.2.length
        acc.2.2 ls.1 = true
    · rw [show encode_step compress acc ls
          = (acc.1 ++ [add_group compress acc.2.1], [ls], ls.1) by
        unfold encode_step; rw [if_pos hs]]
      obtain ⟨gs, hg1, hg2⟩ := ih (acc.1 ++ [add_group compress acc.2.1], [ls], ls.1)
      refine ⟨acc.2.1 :: gs, ?_, ?_⟩
      · rw [hg1]; simp
      · rw [List.flatten_cons, List.append_assoc, hg2]
        simp
    · rw [show encode_step compress acc ls = (acc.1, acc.2.1 ++ [ls], ls.1) by
        unfold encode_step; rw [if_neg hs]]
      obtain ⟨gs, hg1, hg2⟩ := ih (acc.1, acc.2.1 ++ [ls], ls.1)
      refine ⟨gs, hg1, ?_⟩
      rw [hg2]
      simp

/-- The labeled data sections the grouping loop of
`_encode_compressed_blocks` iterates over. -/
def labeledOf (data_sections : List (List Nat))
    (category_starts : List (String × Option Nat)) : List (String × List Nat) :=
  data_sections.enum.map (fun p =>
    (cat_label_for (sortByStart (category_starts.filterMap
      (fun q => q.2.map (fun s => (q.1, s))))) p.1, p.2))

theorem encode_compressed_blocks_eq (compress : List Nat → List Nat)
    (data_sections : List (List Nat)) (category_starts : List (String × Option Nat)) :
    encode_compressed_blocks compress data_sections category_starts
      = ((labeledOf data_sections category_starts).foldl
            (encode_step compress) ([], [], "")).1
        ++ [add_group compress (((labeledOf data_sections category_starts).foldl
            (encode_step compress) ([], [], "")).2.1)] := rfl

theorem encode_blocks_groups (compress : List Nat → List Nat)
    (data_sections : List (List Nat)) (category_starts : List (String × Option Nat)) :
    ∃ gs : List (List (String × List Nat)),
      encode_compressed_blocks compress data_sections category_starts
          = gs.map (add_group compress)
        ∧ gs.flatten = labeledOf data_sections category_starts := by
  obtain ⟨gs, hg1, hg2⟩ := encode_fold_groups compress
    (labeledOf data_sections category_starts) ([], [], "")
  refine ⟨gs.concat (((labeledOf data_sections category_starts).foldl
      (encode_step compress) ([], [], "")).2.1), ?_, ?_⟩
  · rw [encode_compressed_blocks_eq, List.concat_eq_append, List.map_append,
      List.map_singleton, hg1]
    simp
  · rw [List.concat_eq_append, List.flatten_append, List.flatten_cons,
      List.flatten_nil, List.append_nil, hg2]
    simp

theorem takeBytes_zero (bs : List Nat) : takeBytes 0 bs = some ([], bs) := by
  unfold takeBytes
  simp

theorem add_group_decode (compress : List Nat → List Nat)
    (decompress : Nat → List Nat → Option (List Nat))
    (g : List (String × List Nat))
    (hal : ∀ s ∈ g, s.2.length % 32 = 0)
    (hcz : ∀ l : List Nat, l ≠ [] → compress l ≠ [])
    (hdc : ∀ l : List Nat, decompress l.length (compress l) = some l) :
    (payloadOf (add_group compress g)).length
        = compressedBlockSize (add_group compress g).header
      ∧ compressedBlockSize (add_group compress g).header % 32 = 0
      ∧ decodeBlock decompress (add_group compress g).header
            (payloadOf (add_group compress g))
          = some ((g.map (fun s => s.2)).flatten)
      ∧ ((g.map (fun s => s.2)).flatten).length
          = (add_group compress g).header.uncompressed_size
      ∧ (add_group compress g).header.data_section_count = g.length := by
  have hm : mergedAndPadded g = (g.map (fun s => s.2)).flatten :=
    mergedAndPadded_aligned g hal
  have hmlen : (mergedAndPadded g).length = (g.map (fun s => s.2.length)).sum := by
    rw [hm, List.length_flatten, List.map_map]
    rfl
  have hm32 : (mergedAndPadded g).length % 32 = 0 := by
    rw [hmlen]
    apply sum_mod32
    intro x hx
    obtain ⟨s, hs, hxe⟩ := List.mem_map.mp hx
    rw [← hxe]
    exact hal s hs
  unfold add_group
  by_cases hkept : (compress (mergedAndPadded g)).length
      + (32 - (compress (mergedAndPadded g)).length % 32) % 32
      < (g.map (fun s => s.2.length)).sum
  · rw [if_pos hkept]
    dsimp only
    have hcs : (compress (mergedAndPadded g)).length ≠ 0 := by
      intro h0
      rw [h0] at hkept
      have hmne : mergedAndPadded g ≠ [] := by
        intro he
        rw [he] at hmlen
        simp only [List.length_nil] at hmlen
        omega
      have := hcz (mergedAndPadded g) hmne
      rw [List.length_eq_zero] at h0
      exact this h0
    unfold compressedBlockSize payloadOf decodeBlock
    dsimp only
    rw [if_neg hcs, if_pos hcs, if_neg hcs]
    refine ⟨?_, ?_, ?_, ?_, rfl⟩
    · rw [List.length_append, List.length_replicate]
      omega
    · omega
    · rw [List.drop_left' (List.length_replicate _ _), List.take_length, ← hmlen, hdc, hm]
    · rw [← hm, hmlen]
  · rw [if_neg hkept]
    dsimp only
    unfold compressedBlockSize payloadOf decodeBlock
    dsimp only
    rw [if_pos rfl, if_neg (by intro h; exact h rfl), if_pos rfl]
    have hpad : (32 - (mergedAndPadded g).length % 32) % 32 = 0 := by omega
    rw [hpad, List.replicate_zero, List.append_nil]
    refine ⟨by rw [hmlen], by rw [hmlen] at hm32; exact hm32, by rw [hm], ?_, rfl⟩
    rw [← hm, hmlen]

theorem decodeBlocks_groups (compress : List Nat → List Nat)
    (decompress : Nat → List Nat → Option (List Nat))
    (hcz : ∀ l : List Nat, l ≠ [] → compress l ≠ [])
    (hdc : ∀ l : List Nat, decompress l.length (compress l) = some l) :
    ∀ (gs : List (List (String × List Nat))) (rest : List Nat),
      (∀ g ∈ gs, ∀ s ∈ g, s.2.length % 32 = 0) →
      readBlocksPayload (gs.map (fun g => (add_group compress g).header))
          ((gs.map (fun g => payloadOf (add_group compress g))).flatten ++ rest)
        = some (gs.map (fun g => payloadOf (add_group compress g)), rest)
      ∧ decodeBlocks decompress (gs.map (fun g => (add_group compress g).header))
          (gs.map (fun g => payloadOf (add_group compress g)))
          (gs.flatten.map (fun s => s.2.length))
        = some (gs.flatten.map (fun s => s.2)) := by
  intro gs
  induction gs with
  | nil => intro rest _; exact ⟨by simp [readBlocksPayload], by simp [decodeBlocks]⟩
  | cons g gs ih =>
    intro rest hal
    have halg : ∀ s ∈ g, s.2.length % 32 = 0 := hal g (by simp)
    have halgs : ∀ g2 ∈ gs, ∀ s ∈ g2, s.2.length % 32 = 0 :=
      fun g2 hg2 => hal g2 (by simp [hg2])
    obtain ⟨hlen, h32, hdec, hulen, hcount⟩ :=
      add_group_decode compress decompress g halg hcz hdc
    obtain ⟨ihr, ihd⟩ := ih rest halgs
    constructor
    · rw [List.map_cons, List.map_cons, List.flatten_cons, List.append_assoc]
      unfold readBlocksPayload
      rw [takeBytes_append_exact _ _ _ hlen]
      dsimp only
      rw [show (32 - compressedBlockSize (add_group compress g).header % 32) % 32 = 0
          by omega]
      rw [takeBytes_zero]
      dsimp only
      rw [ihr]
    · rw [List.map_cons, List.map_cons, List.flatten_cons, List.map_append,
        List.map_append]
      unfold decodeBlocks
      rw [hdec]
      dsimp only
      rw [if_pos (by rw [← hulen])]
      rw [hcount]
      rw [if_pos (by rw [List.length_append, List.length_map]; omega)]
      rw [List.take_left' (List.length_map _ _), List.drop_left' (List.length_map _ _)]
      rw [ihd]
      dsimp only
      have hslice : sliceSections (g.map (fun s => s.2.length))
          ((g.map (fun s => s.2)).flatten) = g.map (fun s => s.2) := by
        have hmm : g.map (fun s : String × List Nat => s.2.length)
            = (g.map (fun s : String × List Nat => s.2)).map List.length := by
          rw [List.map_map]
          rfl
        rw [hmm]
        exact sliceSections_flatten (g.map (fun s => s.2))
      rw [hslice]

theorem parseBlockHeader_write (h : CompressedBlockHeader) (rest : List Nat)
    (hfit : blockHeaderFits h = true) :
    parseBlockHeader (writeBlockHeader h ++ rest) = some (h, rest) := by
  unfold blockHeaderFits at hfit
  simp only [Bool.and_eq_true, decide_eq_true_eq] at hfit
  obtain ⟨⟨⟨h1, h2⟩, h3⟩, h4⟩ := hfit
  have hc : (2 : Nat) ^ 32 = 256 ^ 4 := by norm_num
  rw [hc] at h1 h2 h3 h4
  unfold writeBlockHeader parseBlockHeader
  simp only [List.append_assoc]
  rw [readBE_writeBE]
  dsimp only
  rw [Nat.mod_eq_of_lt h1, readBE_writeBE]
  dsimp only
  rw [Nat.mod_eq_of_lt h2, readBE_writeBE]
  dsimp only
  rw [Nat.mod_eq_of_lt h3, readBE_writeBE]
  dsimp only
  rw [Nat.mod_eq_of_lt h4]

theorem readBlockHeaders_write :
    ∀ (hs : List CompressedBlockHeader) (rest : List Nat),
      (∀ h ∈ hs, blockHeaderFits h = true) →
      readBlockHeaders hs.length ((hs.map writeBlockHeader).flatten ++ rest)
        = some (hs, rest) := by
  intro hs
  induction hs with
  | nil => intro rest _; simp [readBlockHeaders]
  | cons h t ih =>
    intro rest hfit
    rw [List.map_cons, List.flatten_cons, List.length_cons, List.append_assoc]
    unfold readBlockHeaders
    rw [parseBlockHeader_write h _ (hfit h (by simp))]
    dsimp only
    rw [ih rest (fun h2 hm => hfit h2 (by simp [hm]))]

/-- The `(label, start)` pairs for a category layout beginning at data
section index `n`. -/
def catsWithOffsets (n : Nat) : List (String × List (List Nat)) → List (String × Nat)
  | [] => []
  | (l, v) :: rest => (l, n) :: catsWithOffsets (n + v.length) rest

theorem spansOf_catsWithOffsets :
    ∀ (cats : List (String × List (List Nat))) (pre ds : List (List Nat)),
      cats ≠ [] → ds = pre ++ (cats.map Prod.snd).flatten →
      spansOf (catsWithOffsets pre.length cats) ds = cats := by
  intro cats
  induction cats with
  | nil => intro pre ds hne _; exact absurd rfl hne
  | cons c rest ih =>
    intro pre ds _ hds
    obtain ⟨l, v⟩ := c
    rw [List.map_cons, List.flatten_cons] at hds
    dsimp only at hds
    cases rest with
    | nil =>
      dsimp only [catsWithOffsets, spansOf]
      simp only [List.map_nil, List.flatten_nil, List.append_nil] at hds
      rw [hds, List.drop_left]
    | cons c2 rest2 =>
      obtain ⟨l2, v2⟩ := c2
      dsimp only [catsWithOffsets, spansOf]
      congr 1
      · rw [hds, List.drop_left' rfl]
        rw [show pre.length + v.length - pre.length = v.length by omega]
        rw [List.take_left]
      · have hds2 : ds = (pre ++ v) ++ ((((l2, v2) :: rest2).map Prod.snd).flatten) := by
          rw [hds, List.append_assoc]
        have h := ih (pre ++ v) ds (by simp) hds2
        dsimp only [catsWithOffsets] at h
        rw [List.length_append] at h
        exact h

theorem labeledOf_map_snd (ds : List (List Nat))
    (starts : List (String × Option Nat)) :
    (labeledOf ds starts).map (fun s => s.2) = ds := by
  unfold labeledOf
  rw [List.map_map]
  exact List.enum_map_snd ds

theorem labeledOf_map_len (ds : List (List Nat))
    (starts : List (String × Option Nat)) :
    (labeledOf ds starts).map (fun s => s.2.length) = ds.map List.length := by
  have h := congrArg (List.map List.length) (labeledOf_map_snd ds starts)
  rw [List.map_map] at h
  exact h

theorem mrea_roundtrip (compress : List Nat → List Nat)
    (decompress : Nat → List Nat → Option (List Nat)) (x : MreaParsed) (out : List Nat)
    (hcz : ∀ l : List Nat, l ≠ [] → compress l ≠ [])
    (hdc : ∀ l : List Nat, decompress l.length (compress l) = some l)
    (hkeys : x.raw_sections.map Prod.fst
      = ["geometry_section", "unknown_section_2", "script_layers_section",
         "generated_script_objects_section", "collision_section", "unknown_section_1",
         "lights_section", "visibility_tree_section", "path_section",
         "portal_area_section", "static_geometry_map_section"])
    (hal : ∀ p ∈ x.raw_sections, ∀ d ∈ p.2, d.length % 32 = 0)
    (hbuild : buildMREA compress x = .ok out) :
    parseMREA decompress out = some x := by
  unfold buildMREA at hbuild
  dsimp only at hbuild
  by_cases h19 : 0x19 ≤ x.version
  case neg =>
    rw [if_neg h19] at hbuild
    exact absurd hbuild (by simp)
  rw [if_pos h19] at hbuild
  rcases hraw : x.raw_sections with _ | ⟨⟨l1, v1⟩, _ | ⟨⟨l2, v2⟩, _ | ⟨⟨l3, v3⟩, _ | ⟨⟨l4, v4⟩, _ | ⟨⟨l5, v5⟩, _ | ⟨⟨l6, v6⟩, _ | ⟨⟨l7, v7⟩, _ | ⟨⟨l8, v8⟩, _ | ⟨⟨l9, v9⟩, _ | ⟨⟨l10, v10⟩, _ | ⟨⟨l11, v11⟩, rest⟩⟩⟩⟩⟩⟩⟩⟩⟩⟩⟩
  all_goals rw [hraw] at hkeys hal hbuild
  all_goals simp only [List.map_cons, List.map_nil, List.cons.injEq,
    List.map_eq_nil_iff, reduceCtorEq, and_false, false_and] at hkeys
  obtain ⟨rfl, rfl, rfl, rfl, rfl, rfl, rfl, rfl, rfl, rfl, rfl, rfl⟩ := hkeys
  have hsl : dlookup (("geometry_section", v1) :: ("unknown_section_2", v2) :: ("script_layers_section", v3) :: ("generated_script_objects_section", v4) :: ("collision_section", v5) :: ("unknown_section_1", v6) :: ("lights_section", v7) :: ("visibility_tree_section", v8) :: ("path_section", v9) :: ("portal_area_section", v10) :: ("static_geometry_map_section", v11) :: [])
      "script_layers_section" = some v3 := rfl
  rw [hsl] at hbuild
  dsimp only at hbuild
  have hbco : build_category_offsets (("geometry_section", v1) :: ("unknown_section_2", v2) :: ("script_layers_section", v3) :: ("generated_script_objects_section", v4) :: ("collision_section", v5) :: ("unknown_section_1", v6) :: ("lights_section", v7) :: ("visibility_tree_section", v8) :: ("path_section", v9) :: ("portal_area_section", v10) :: ("static_geometry_map_section", v11) :: [])
      = ([some 0, some v1.length, some (v1 ++ v2).length, some ((v1 ++ v2) ++ v3).length, some (((v1 ++ v2) ++ v3) ++ v4).length, some ((((v1 ++ v2) ++ v3) ++ v4) ++ v5).length, some (((((v1 ++ v2) ++ v3) ++ v4) ++ v5) ++ v6).length, some ((((((v1 ++ v2) ++ v3) ++ v4) ++ v5) ++ v6) ++ v7).length, some (((((((v1 ++ v2) ++ v3) ++ v4) ++ v5) ++ v6) ++ v7) ++ v8).length, none, some ((((((((v1 ++ v2) ++ v3) ++ v4) ++ v5) ++ v6) ++ v7) ++ v8) ++ v9).length, some (((((((((v1 ++ v2) ++ v3) ++ v4) ++ v5) ++ v6) ++ v7) ++ v8) ++ v9) ++ v10).length],
         ((((((((((v1 ++ v2) ++ v3) ++ v4) ++ v5) ++ v6) ++ v7) ++ v8) ++ v9) ++ v10) ++ v11)) := rfl
  rw [hbco] at hbuild
  dsimp only at hbuild
  set BLOCKS := encode_compressed_blocks compress ((((((((((v1 ++ v2) ++ v3) ++ v4) ++ v5) ++ v6) ++ v7) ++ v8) ++ v9) ++ v10) ++ v11)
      (all_categories.zip [some 0, some v1.length, some (v1 ++ v2).length, some ((v1 ++ v2) ++ v3).length, some (((v1 ++ v2) ++ v3) ++ v4).length, some ((((v1 ++ v2) ++ v3) ++ v4) ++ v5).length, some (((((v1 ++ v2) ++ v3) ++ v4) ++ v5) ++ v6).length, some ((((((v1 ++ v2) ++ v3) ++ v4) ++ v5) ++ v6) ++ v7).length, some (((((((v1 ++ v2) ++ v3) ++ v4) ++ v5) ++ v6) ++ v7) ++ v8).length, none, some ((((((((v1 ++ v2) ++ v3) ++ v4) ++ v5) ++ v6) ++ v7) ++ v8) ++ v9).length, some (((((((((v1 ++ v2) ++ v3) ++ v4) ++ v5) ++ v6) ++ v7) ++ v8) ++ v9) ++ v10).length]) with hBL
  match hh : buildMreaHeader (⟨x.version, x.area_transform, x.world_model_count, some v3.length, ((((((((((v1 ++ v2) ++ v3) ++ v4) ++ v5) ++ v6) ++ v7) ++ v8) ++ v9) ++ v10) ++ v11).length, 0, (v1 ++ v2).length, some ((v1 ++ v2) ++ v3).length, (((v1 ++ v2) ++ v3) ++ v4).length, ((((v1 ++ v2) ++ v3) ++ v4) ++ v5).length, (((((v1 ++ v2) ++ v3) ++ v4) ++ v5) ++ v6).length, ((((((v1 ++ v2) ++ v3) ++ v4) ++ v5) ++ v6) ++ v7).length, (((((((v1 ++ v2) ++ v3) ++ v4) ++ v5) ++ v6) ++ v7) ++ v8).length, none, some v1.length, some ((((((((v1 ++ v2) ++ v3) ++ v4) ++ v5) ++ v6) ++ v7) ++ v8) ++ v9).length, some (((((((((v1 ++ v2) ++ v3) ++ v4) ++ v5) ++ v6) ++ v7) ++ v8) ++ v9) ++ v10).length, some BLOCKS.length⟩ : MreaHeader) with
  | .error e =>
    rw [hh] at hbuild
    exact absurd hbuild (by simp)
  | .ok hb =>
  rw [hh] at hbuild
  dsimp only at hbuild
  by_cases hfit : (((((((((((v1 ++ v2) ++ v3) ++ v4) ++ v5) ++ v6) ++ v7) ++ v8) ++ v9) ++ v10) ++ v11).all (fun s => decide (s.length < 2 ^ 32))
      && BLOCKS.all (fun b => blockHeaderFits b.header)) = true
  case neg =>
    rw [if_neg hfit] at hbuild
    exact absurd hbuild (by simp)
  rw [if_pos hfit] at hbuild
  rw [Bool.and_eq_true] at hfit
  obtain ⟨hfit1, hfit2⟩ := hfit
  have hout : out = hb
      ++ (writeArray 4 (((((((((((v1 ++ v2) ++ v3) ++ v4) ++ v5) ++ v6) ++ v7) ++ v8) ++ v9) ++ v10) ++ v11).map List.length)
      ++ (List.replicate ((32 - (4 * ((((((((((v1 ++ v2) ++ v3) ++ v4) ++ v5) ++ v6) ++ v7) ++ v8) ++ v9) ++ v10) ++ v11).length) % 32) % 32) 0
      ++ ((BLOCKS.map (fun b => writeBlockHeader b.header)).flatten
      ++ (List.replicate ((32 - (16 * BLOCKS.length) % 32) % 32) 0
      ++ (BLOCKS.map payloadOf).flatten)))) := (Except.ok.inj hbuild).symm
  subst hout
  have h2to256 : (2 : Nat) ^ 32 = 256 ^ 4 := by norm_num
  have hsizes : ∀ i ∈ ((((((((((v1 ++ v2) ++ v3) ++ v4) ++ v5) ++ v6) ++ v7) ++ v8) ++ v9) ++ v10) ++ v11).map List.length, i < 256 ^ 4 := by
    intro i hi
    obtain ⟨s, hs2, rfl⟩ := List.mem_map.mp hi
    have h4 := List.all_eq_true.mp hfit1 s hs2
    simp only [decide_eq_true_eq] at h4
    rw [← h2to256]
    exact h4
  have hbh : ∀ h ∈ BLOCKS.map (fun b => b.header), blockHeaderFits h = true := by
    intro h hm
    obtain ⟨b, hb2, rfl⟩ := List.mem_map.mp hm
    exact List.all_eq_true.mp hfit2 b hb2
  obtain ⟨gs, hgs1, hgs2⟩ := encode_blocks_groups compress ((((((((((v1 ++ v2) ++ v3) ++ v4) ++ v5) ++ v6) ++ v7) ++ v8) ++ v9) ++ v10) ++ v11)
      (all_categories.zip [some 0, some v1.length, some (v1 ++ v2).length, some ((v1 ++ v2) ++ v3).length, some (((v1 ++ v2) ++ v3) ++ v4).length, some ((((v1 ++ v2) ++ v3) ++ v4) ++ v5).length, some (((((v1 ++ v2) ++ v3) ++ v4) ++ v5) ++ v6).length, some ((((((v1 ++ v2) ++ v3) ++ v4) ++ v5) ++ v6) ++ v7).length, some (((((((v1 ++ v2) ++ v3) ++ v4) ++ v5) ++ v6) ++ v7) ++ v8).length, none, some ((((((((v1 ++ v2) ++ v3) ++ v4) ++ v5) ++ v6) ++ v7) ++ v8) ++ v9).length, some (((((((((v1 ++ v2) ++ v3) ++ v4) ++ v5) ++ v6) ++ v7) ++ v8) ++ v9) ++ v10).length])
  rw [← hBL] at hgs1
  have hP11al : ∀ d ∈ ((((((((((v1 ++ v2) ++ v3) ++ v4) ++ v5) ++ v6) ++ v7) ++ v8) ++ v9) ++ v10) ++ v11), d.length % 32 = 0 := by
    intro d hd
    simp only [List.mem_append] at hd
    rcases hd with ((((((((((h|h)|h)|h)|h)|h)|h)|h)|h)|h)|h)
    · exact hal ("geometry_section", v1) (by simp) d h
    · exact hal ("unknown_section_2", v2) (by simp) d h
    · exact hal ("script_layers_section", v3) (by simp) d h
    · exact hal ("generated_script_objects_section", v4) (by simp) d h
    · exact hal ("collision_section", v5) (by simp) d h
    · exact hal ("unknown_section_1", v6) (by simp) d h
    · exact hal ("lights_section", v7) (by simp) d h
    · exact hal ("visibility_tree_section", v8) (by simp) d h
    · exact hal ("path_section", v9) (by simp) d h
    · exact hal ("portal_area_section", v10) (by simp) d h
    · exact hal ("static_geometry_map_section", v11) (by simp) d h
  have halgs : ∀ g2 ∈ gs, ∀ s ∈ g2, s.2.length % 32 = 0 := by
    intro g2 hg2 s hs
    have hmem : s ∈ gs.flatten := List.mem_flatten.mpr ⟨g2, hg2, hs⟩
    rw [hgs2] at hmem
    unfold labeledOf at hmem
    obtain ⟨p, hp, hpe⟩ := List.mem_map.mp hmem
    have hsnd : s.2 = p.2 := by rw [← hpe]
    have hpm : p.2 ∈ ((((((((((v1 ++ v2) ++ v3) ++ v4) ++ v5) ++ v6) ++ v7) ++ v8) ++ v9) ++ v10) ++ v11) := by
      have h2 : p.2 ∈ (((((((((((v1 ++ v2) ++ v3) ++ v4) ++ v5) ++ v6) ++ v7) ++ v8) ++ v9) ++ v10) ++ v11)).enum.map Prod.snd :=
        List.mem_map.mpr ⟨p, hp, rfl⟩
      rwa [List.enum_map_snd] at h2
    rw [hsnd]
    exact hP11al p.2 hpm
  have hsz : gs.flatten.map (fun s => s.2.length) = (((((((((((v1 ++ v2) ++ v3) ++ v4) ++ v5) ++ v6) ++ v7) ++ v8) ++ v9) ++ v10) ++ v11)).map List.length := by
    rw [hgs2]
    exact labeledOf_map_len _ _
  have hval : gs.flatten.map (fun s => s.2) = ((((((((((v1 ++ v2) ++ v3) ++ v4) ++ v5) ++ v6) ++ v7) ++ v8) ++ v9) ++ v10) ++ v11) := by
    rw [hgs2]
    exact labeledOf_map_snd _ _
  have hmap1 : (gs.map (add_group compress)).map (fun b => b.header)
      = gs.map (fun g => (add_group compress g).header) := by
    rw [List.map_map]
    rfl
  have hmap2 : (gs.map (add_group compress)).map payloadOf
      = gs.map (fun g => payloadOf (add_group compress g)) := by
    rw [List.map_map]
    rfl
  obtain ⟨hread, hdecode⟩ := decodeBlocks_groups compress decompress hcz hdc gs [] halgs
  have hreadB : readBlocksPayload (BLOCKS.map (fun b => b.header))
      ((BLOCKS.map payloadOf).flatten ++ ([] : List Nat))
      = some (BLOCKS.map payloadOf, ([] : List Nat)) := by
    rw [hgs1, hmap1, hmap2]
    exact hread
  have hdecodeB : decodeBlocks decompress (BLOCKS.map (fun b => b.header))
      (BLOCKS.map payloadOf) ((((((((((((v1 ++ v2) ++ v3) ++ v4) ++ v5) ++ v6) ++ v7) ++ v8) ++ v9) ++ v10) ++ v11)).map List.length)
      = some ((((((((((v1 ++ v2) ++ v3) ++ v4) ++ v5) ++ v6) ++ v7) ++ v8) ++ v9) ++ v10) ++ v11) := by
    rw [hgs1, hmap1, hmap2, ← hsz, hdecode, hval]
  unfold parseMREA
  rw [parse_build_mreaHeader (⟨x.version, x.area_transform, x.world_model_count, some v3.length, ((((((((((v1 ++ v2) ++ v3) ++ v4) ++ v5) ++ v6) ++ v7) ++ v8) ++ v9) ++ v10) ++ v11).length, 0, (v1 ++ v2).length, some ((v1 ++ v2) ++ v3).length, (((v1 ++ v2) ++ v3) ++ v4).length, ((((v1 ++ v2) ++ v3) ++ v4) ++ v5).length, (((((v1 ++ v2) ++ v3) ++ v4) ++ v5) ++ v6).length, ((((((v1 ++ v2) ++ v3) ++ v4) ++ v5) ++ v6) ++ v7).length, (((((((v1 ++ v2) ++ v3) ++ v4) ++ v5) ++ v6) ++ v7) ++ v8).length, none, some v1.length, some ((((((((v1 ++ v2) ++ v3) ++ v4) ++ v5) ++ v6) ++ v7) ++ v8) ++ v9).length, some (((((((((v1 ++ v2) ++ v3) ++ v4) ++ v5) ++ v6) ++ v7) ++ v8) ++ v9) ++ v10).length, some BLOCKS.length⟩ : MreaHeader) hb _ h19 rfl hh]
  dsimp only
  have hra : readArray 4 (((((((((((v1 ++ v2) ++ v3) ++ v4) ++ v5) ++ v6) ++ v7) ++ v8) ++ v9) ++ v10) ++ v11)).length
      (writeArray 4 ((((((((((((v1 ++ v2) ++ v3) ++ v4) ++ v5) ++ v6) ++ v7) ++ v8) ++ v9) ++ v10) ++ v11)).map List.length)
        ++ (List.replicate ((32 - (4 * (((((((((((v1 ++ v2) ++ v3) ++ v4) ++ v5) ++ v6) ++ v7) ++ v8) ++ v9) ++ v10) ++ v11)).length) % 32) % 32) 0
        ++ ((BLOCKS.map (fun b => writeBlockHeader b.header)).flatten
        ++ (List.replicate ((32 - (16 * BLOCKS.length) % 32) % 32) 0
        ++ (BLOCKS.map payloadOf).flatten))))
      = some ((((((((((((v1 ++ v2) ++ v3) ++ v4) ++ v5) ++ v6) ++ v7) ++ v8) ++ v9) ++ v10) ++ v11)).map List.length,
          List.replicate ((32 - (4 * (((((((((((v1 ++ v2) ++ v3) ++ v4) ++ v5) ++ v6) ++ v7) ++ v8) ++ v9) ++ v10) ++ v11)).length) % 32) % 32) 0
          ++ ((BLOCKS.map (fun b => writeBlockHeader b.header)).flatten
          ++ (List.replicate ((32 - (16 * BLOCKS.length) % 32) % 32) 0
          ++ (BLOCKS.map payloadOf).flatten))) := by
    rw [show (((((((((((v1 ++ v2) ++ v3) ++ v4) ++ v5) ++ v6) ++ v7) ++ v8) ++ v9) ++ v10) ++ v11)).length = ((((((((((((v1 ++ v2) ++ v3) ++ v4) ++ v5) ++ v6) ++ v7) ++ v8) ++ v9) ++ v10) ++ v11)).map List.length).length
        from (List.length_map _ _).symm]
    exact readArray_writeArray 4 _ _ hsizes
  rw [hra]
  dsimp only
  rw [takeBytes_append_exact _ _ _ (List.length_replicate _ _)]
  dsimp only
  have hmapw : BLOCKS.map (fun b => writeBlockHeader b.header)
      = (BLOCKS.map (fun b => b.header)).map writeBlockHeader := by
    rw [List.map_map]
    rfl
  rw [hmapw]
  have hrbh : readBlockHeaders BLOCKS.length
      (((BLOCKS.map (fun b => b.header)).map writeBlockHeader).flatten
        ++ (List.replicate ((32 - (16 * BLOCKS.length) % 32) % 32) 0
        ++ (BLOCKS.map payloadOf).flatten))
      = some (BLOCKS.map (fun b => b.header),
          List.replicate ((32 - (16 * BLOCKS.length) % 32) % 32) 0
          ++ (BLOCKS.map payloadOf).flatten) := by
    rw [show BLOCKS.length = (BLOCKS.map (fun b => b.header)).length
        from (List.length_map _ _).symm]
    exact readBlockHeaders_write _ _ hbh
  rw [hrbh]
  dsimp only
  rw [takeBytes_append_exact _ _ _ (List.length_replicate _ _)]
  dsimp only
  rw [show (BLOCKS.map payloadOf).flatten
      = (BLOCKS.map payloadOf).flatten ++ ([] : List Nat)
      from (List.append_nil _).symm]
  rw [hreadB]
  dsimp only
  rw [hdecodeB]
  dsimp only
  unfold splitIntoCategories
  have hcat : all_categories.filterMap (fun l =>
      (headerCategoryValue (⟨x.version, x.area_transform, x.world_model_count, some v3.length, ((((((((((v1 ++ v2) ++ v3) ++ v4) ++ v5) ++ v6) ++ v7) ++ v8) ++ v9) ++ v10) ++ v11).length, 0, (v1 ++ v2).length, some ((v1 ++ v2) ++ v3).length, (((v1 ++ v2) ++ v3) ++ v4).length, ((((v1 ++ v2) ++ v3) ++ v4) ++ v5).length, (((((v1 ++ v2) ++ v3) ++ v4) ++ v5) ++ v6).length, ((((((v1 ++ v2) ++ v3) ++ v4) ++ v5) ++ v6) ++ v7).length, (((((((v1 ++ v2) ++ v3) ++ v4) ++ v5) ++ v6) ++ v7) ++ v8).length, none, some v1.length, some ((((((((v1 ++ v2) ++ v3) ++ v4) ++ v5) ++ v6) ++ v7) ++ v8) ++ v9).length, some (((((((((v1 ++ v2) ++ v3) ++ v4) ++ v5) ++ v6) ++ v7) ++ v8) ++ v9) ++ v10).length, some BLOCKS.length⟩ : MreaHeader) l).map (fun v => (l, v)))
      = [("geometry_section", 0), ("unknown_section_2", v1.length), ("script_layers_section", (v1 ++ v2).length), ("generated_script_objects_section", ((v1 ++ v2) ++ v3).length), ("collision_section", (((v1 ++ v2) ++ v3) ++ v4).length), ("unknown_section_1", ((((v1 ++ v2) ++ v3) ++ v4) ++ v5).length), ("lights_section", (((((v1 ++ v2) ++ v3) ++ v4) ++ v5) ++ v6).length), ("visibility_tree_section", ((((((v1 ++ v2) ++ v3) ++ v4) ++ v5) ++ v6) ++ v7).length), ("path_section", (((((((v1 ++ v2) ++ v3) ++ v4) ++ v5) ++ v6) ++ v7) ++ v8).length), ("portal_area_section", ((((((((v1 ++ v2) ++ v3) ++ v4) ++ v5) ++ v6) ++ v7) ++ v8) ++ v9).length), ("static_geometry_map_section", (((((((((v1 ++ v2) ++ v3) ++ v4) ++ v5) ++ v6) ++ v7) ++ v8) ++ v9) ++ v10).length)] := rfl
  rw [hcat]
  have hpw : List.Pairwise (fun a b : String × Nat => a.2 ≤ b.2)
      ([("geometry_section", 0), ("unknown_section_2", v1.length), ("script_layers_section", (v1 ++ v2).length), ("generated_script_objects_section", ((v1 ++ v2) ++ v3).length), ("collision_section", (((v1 ++ v2) ++ v3) ++ v4).length), ("unknown_section_1", ((((v1 ++ v2) ++ v3) ++ v4) ++ v5).length), ("lights_section", (((((v1 ++ v2) ++ v3) ++ v4) ++ v5) ++ v6).length), ("visibility_tree_section", ((((((v1 ++ v2) ++ v3) ++ v4) ++ v5) ++ v6) ++ v7).length), ("path_section", (((((((v1 ++ v2) ++ v3) ++ v4) ++ v5) ++ v6) ++ v7) ++ v8).length), ("portal_area_section", ((((((((v1 ++ v2) ++ v3) ++ v4) ++ v5) ++ v6) ++ v7) ++ v8) ++ v9).length), ("static_geometry_map_section", (((((((((v1 ++ v2) ++ v3) ++ v4) ++ v5) ++ v6) ++ v7) ++ v8) ++ v9) ++ v10).length)]) := by
    simp [List.length_append]
    try omega
  rw [sortByStart_of_sorted _ hpw]
  have hds0 : ((((((((((v1 ++ v2) ++ v3) ++ v4) ++ v5) ++ v6) ++ v7) ++ v8) ++ v9) ++ v10) ++ v11) = ([] : List (List Nat))
      ++ (((("geometry_section", v1) :: ("unknown_section_2", v2) :: ("script_layers_section", v3) :: ("generated_script_objects_section", v4) :: ("collision_section", v5) :: ("unknown_section_1", v6) :: ("lights_section", v7) :: ("visibility_tree_section", v8) :: ("path_section", v9) :: ("portal_area_section", v10) :: ("static_geometry_map_section", v11) :: []).map Prod.snd).flatten) := by
    simp [List.append_assoc]
  have hcats : ([("geometry_section", 0), ("unknown_section_2", v1.length), ("script_layers_section", (v1 ++ v2).length), ("generated_script_objects_section", ((v1 ++ v2) ++ v3).length), ("collision_section", (((v1 ++ v2) ++ v3) ++ v4).length), ("unknown_section_1", ((((v1 ++ v2) ++ v3) ++ v4) ++ v5).length), ("lights_section", (((((v1 ++ v2) ++ v3) ++ v4) ++ v5) ++ v6).length), ("visibility_tree_section", ((((((v1 ++ v2) ++ v3) ++ v4) ++ v5) ++ v6) ++ v7).length), ("path_section", (((((((v1 ++ v2) ++ v3) ++ v4) ++ v5) ++ v6) ++ v7) ++ v8).length), ("portal_area_section", ((((((((v1 ++ v2) ++ v3) ++ v4) ++ v5) ++ v6) ++ v7) ++ v8) ++ v9).length), ("static_geometry_map_section", (((((((((v1 ++ v2) ++ v3) ++ v4) ++ v5) ++ v6) ++ v7) ++ v8) ++ v9) ++ v10).length)] : List (String × Nat))
      = catsWithOffsets (([] : List (List Nat)).length)
        (("geometry_section", v1) :: ("unknown_section_2", v2) :: ("script_layers_section", v3) :: ("generated_script_objects_section", v4) :: ("collision_section", v5) :: ("unknown_section_1", v6) :: ("lights_section", v7) :: ("visibility_tree_section", v8) :: ("path_section", v9) :: ("portal_area_section", v10) :: ("static_geometry_map_section", v11) :: []) := by
    simp [catsWithOffsets, List.length_append]
    omega
  rw [hcats]
  rw [spansOf_catsWithOffsets _ [] _ (by simp) hds0]
  rw [← hraw]

/-- C7 (amended): the MAPW codec round-trips structurally
(`parse(build(ids))` recovers the ids with nothing left over) and
byte-exactly (`build(parse(bytes))` reproduces the input bytes, padding
included).  The MREA codec round-trips only from Echoes (version `0x19`)
on — `_build` raises `RuntimeError("Not implemented yet")` for every
earlier version — and there under the file's well-formedness conditions:
the categories laid out in declared order with the octree category absent,
every data section 32-byte aligned, and an LZO pair whose `decompress`
inverts `compress` and whose `compress` never returns empty output on
nonempty input. -/
theorem C7_amended_roundtrips :
    (∀ (g : Game) (ids out : List Nat),
        buildMAPW g ids = some out → parseMAPW g out = some (ids, []))
      ∧ (∀ (g : Game) (bs ids : List Nat),
          (∀ b ∈ bs, b < 256) → parseMAPW g bs = some (ids, []) →
          buildMAPW g ids = some bs)
      ∧ (∀ (compress : List Nat → List Nat)
            (decompress : Nat → List Nat → Option (List Nat))
            (x : MreaParsed) (out : List Nat),
          (∀ l : List Nat, l ≠ [] → compress l ≠ []) →
          (∀ l : List Nat, decompress l.length (compress l) = some l) →
          x.raw_sections.map Prod.fst
            = ["geometry_section", "unknown_section_2", "script_layers_section",
               "generated_script_objects_section", "collision_section",
               "unknown_section_1", "lights_section", "visibility_tree_section",
               "path_section", "portal_area_section",
               "static_geometry_map_section"] →
          (∀ p ∈ x.raw_sections, ∀ d ∈ p.2, d.length % 32 = 0) →
          buildMREA compress x = .ok out →
          parseMREA decompress out = some x) :=
  ⟨parseMAPW_buildMAPW, buildMAPW_parseMAPW, mrea_roundtrip⟩

/-- The MAPW bytes of the one-entry map `[5]` for Echoes. -/
def c7wMapw : List Nat :=
  match buildMAPW Game.ECHOES [5] with
  | some o => o
  | none => []

/-- A concrete Echoes-version MREA parse result: one 32-byte geometry
section, every other category present but empty, no octree category. -/
def c7wX : MreaParsed :=
  ⟨0x19, List.replicate 48 0, 0,
    [("geometry_section", [List.replicate 32 0]), ("unknown_section_2", []),
     ("script_layers_section", []), ("generated_script_objects_section", []),
     ("collision_section", []), ("unknown_section_1", []), ("lights_section", []),
     ("visibility_tree_section", []), ("path_section", []),
     ("portal_area_section", []), ("static_geometry_map_section", [])]⟩

/-- The bytes `buildMREA` produces for `c7wX` with identity compression. -/
def c7wOut : List Nat :=
  match buildMREA (fun l => l) c7wX with
  | .ok o => o
  | .error _ => []

/-- Witness for `C7_amended_roundtrips` at concrete inputs. -/
theorem C7_amended_roundtrips_witness :
    parseMAPW Game.ECHOES c7wMapw = some ([5], [])
      ∧ buildMAPW Game.ECHOES [5] = some c7wMapw
      ∧ parseMREA (fun n l => if l.length = n then some l else none) c7wOut
          = some c7wX := by
  refine ⟨?_, ?_, ?_⟩
  · exact C7_amended_roundtrips.1 Game.ECHOES [5] c7wMapw (by rfl)
  · exact C7_amended_roundtrips.2.1 Game.ECHOES c7wMapw [5] (by decide) (by rfl)
  · refine C7_amended_roundtrips.2.2 (fun l => l)
      (fun n l => if l.length = n then some l else none) c7wX c7wOut
      (fun l h => h) (fun l => by simp) (by rfl) (by decide) ?_
    set_option maxRecDepth 10000 in rfl
